import Mathlib

/-!
Verification of the pixie source-to-source compiler (lexer, parser,
compiler/emitter) against its natural-language specification.

The Go source is shallowly embedded: each Go function becomes a Lean
function of the same name operating on explicit state.  Machine `int`
indices become `Nat`; Go maps become association lists observed only
through lookup/insert/delete; `(T, error)` returns become
`Except Err T` (paired with the updated state for stateful receivers).
The Unicode character-class predicates (`unicode.IsSpace`,
`unicode.IsNumber`, `unicode.IsLetter`) are modelled by their ASCII
fragments, which agree with Go on every character appearing in the
inputs of the claims.
-/

namespace Pixie

/-- Error values.  `fmt.Errorf("...: %w", e)` is `Err.wrap ctx e`,
`errors.Join a b` is `Err.join a b`, sentinel errors and the
distinguishable message families get their own constructors, and the
remaining ad-hoc `fmt.Errorf` messages become `Err.msg`. -/
inductive Err where
  | eof
  | unexpectedEOF
  | invalidRune (c : Char)
  | invalidTypeAssign
  | varExists (name : String)
  | varNotExists (name : String)
  | objExists (name : String)
  | objNotExists (name : String)
  | msg (s : String)
  | wrap (ctx : String) (e : Err)
  | join (e₁ e₂ : Err)
deriving DecidableEq, Repr

/-- `errors.Is`: unwraps `%w` wrapping and `errors.Join` trees looking
for the target error value. -/
def Err.is (e target : Err) : Bool :=
  if e = target then true
  else
    match e with
    | .wrap _ inner => inner.is target
    | .join a b => a.is target || b.is target
    | _ => false

/-- Token kinds from `lexer.go` (the comparison kinds are referenced by
the parser's precedence table but never produced by this lexer). -/
inductive TokenType where
  | undefined
  | label
  | numberLiteral
  | stringLiteral
  | booleanLiteral
  | plus
  | minus
  | asterisk
  | forwardSlash
  | openParan
  | closeParan
  | comma
  | equal
  | colon
  | openBracket
  | closeBracket
  | period
  | openBrace
  | closeBrace
  | equalEqual
  | bangEqual
  | lessThan
  | lessThanEqual
  | greaterThan
  | greaterThanEqual
deriving DecidableEq, Repr

structure Token where
  type : TokenType
  value : String
deriving DecidableEq, Repr

/-- ASCII fragment of Go `unicode.IsSpace`. -/
def isSpaceRune (c : Char) : Bool :=
  c = ' ' || c = '\t' || c = '\n' || c = '\r' || c = '\x0b' || c = '\x0c'

/-- ASCII fragment of Go `unicode.IsNumber`. -/
def isNumberRune (c : Char) : Bool :=
  c.isDigit

/-- `isLabelRune` from `lexer.go`: letters, numbers and underscores
(ASCII fragment of the Unicode classes). -/
def isLabelRune (c : Char) : Bool :=
  c.isAlpha || isNumberRune c || c = '_'

/-- `TokenTypeCharactersMap` from `lexer.go`. -/
def charTokenMap (c : Char) : Option Token :=
  if c = '(' then some ⟨.openParan, ""⟩
  else if c = ')' then some ⟨.closeParan, ""⟩
  else if c = ',' then some ⟨.comma, ""⟩
  else if c = '+' then some ⟨.plus, ""⟩
  else if c = '-' then some ⟨.minus, ""⟩
  else if c = '*' then some ⟨.asterisk, ""⟩
  else if c = '/' then some ⟨.forwardSlash, ""⟩
  else if c = '=' then some ⟨.equal, ""⟩
  else if c = ':' then some ⟨.colon, ""⟩
  else if c = '[' then some ⟨.openBracket, ""⟩
  else if c = ']' then some ⟨.closeBracket, ""⟩
  else if c = '\x7b' then some ⟨.openBrace, ""⟩
  else if c = '\x7d' then some ⟨.closeBrace, ""⟩
  else none

/-- `Lexer` struct: rune slice, cursor, one-token peek buffer. -/
structure Lexer where
  input : List Char
  index : Nat
  buf : Option Token
deriving DecidableEq, Repr

/-- `New` from `lexer.go`. -/
def Lexer.new (input : String) : Lexer :=
  ⟨input.data, 0, none⟩

/-- Fuel-exhaustion marker.  The Go loops terminate because every
iteration consumes input or tokens; the embedding makes this explicit
with a structural fuel parameter that every call supplies amply (the
scanners receive `input.length + 1`, which always suffices). -/
def outOfFuel : Err := .msg "out of fuel"

/-- `skipComments` from `lexer.go`: advance the cursor to the next
`'\n'`/`'\r'` (exclusive) or to the end of input. -/
def skipLine : Nat → List Char → Nat → Nat
  | 0, _, j => j
  | fuel + 1, input, j =>
    if h : j < input.length then
      if input.get ⟨j, h⟩ = '\n' || input.get ⟨j, h⟩ = '\r' then j
      else skipLine fuel input (j + 1)
    else j

theorem skipLine_ge (fuel : Nat) (input : List Char) (j : Nat) :
    j ≤ skipLine fuel input j := by
  induction fuel generalizing j with
  | zero => exact Nat.le_refl j
  | succ fuel ih =>
      rw [skipLine]
      split
      · split
        · exact Nat.le_refl j
        · have h := ih (j + 1)
          omega
      · exact Nat.le_refl j

/-- The whitespace/comment-skipping behaviour of `GetToken`'s outer
loop: the loop re-enters exactly when it sees a space (consuming it) or
a `//` comment (consuming it through `skipComments`), and stops on any
other character or at end of input. -/
def skipIgnored : Nat → List Char → Nat → Nat
  | 0, _, i => i
  | fuel + 1, input, i =>
    if h : i < input.length then
      if isSpaceRune (input.get ⟨i, h⟩) then skipIgnored fuel input (i + 1)
      else if input.get ⟨i, h⟩ = '/' ∧ (input.get? (i + 1) = some '/') then
        skipIgnored fuel input (skipLine (input.length + 1) input (i + 2))
      else i
    else i

theorem skipIgnored_eq_self (fuel : Nat) (input : List Char) (j : Nat)
    (hcond : ∀ h : j < input.length,
      isSpaceRune (input.get ⟨j, h⟩) = false ∧
      ¬(input.get ⟨j, h⟩ = '/' ∧ input.get? (j + 1) = some '/')) :
    skipIgnored fuel input j = j := by
  cases fuel with
  | zero => rfl
  | succ fuel =>
      rw [skipIgnored]
      split
      · rename_i h
        rw [if_neg (by simpa using (hcond h).1), if_neg (hcond h).2]
      · rfl

theorem skipIgnored_cond (fuel : Nat) (input : List Char) (i : Nat)
    (hsuff : input.length - i < fuel) :
    ∀ h : skipIgnored fuel input i < input.length,
      isSpaceRune (input.get ⟨skipIgnored fuel input i, h⟩) = false ∧
      ¬(input.get ⟨skipIgnored fuel input i, h⟩ = '/' ∧
        input.get? (skipIgnored fuel input i + 1) = some '/') := by
  induction fuel generalizing i with
  | zero => omega
  | succ fuel ih =>
      rw [skipIgnored]
      split
      · rename_i h
        split
        · exact ih (i + 1) (by omega)
        · split
          · rename_i hs hc
            refine ih (skipLine (input.length + 1) input (i + 2)) ?_
            have := skipLine_ge (input.length + 1) input (i + 2)
            omega
          · rename_i hs hc
            intro h2
            exact ⟨by simpa using hs, hc⟩
      · rename_i h
        intro h2
        omega

/-- `getTokenNumberLiteral`: consume digits and at most one `'.'`,
returning the literal text and the index after it. -/
def scanNumber : Nat → List Char → Nat → Bool → String → String × Nat
  | 0, _, i, _, acc => (acc, i)
  | fuel + 1, input, i, hasDot, acc =>
    if h : i < input.length then
      let c := input.get ⟨i, h⟩
      if isNumberRune c then scanNumber fuel input (i + 1) hasDot (acc.push c)
      else if c = '.' ∧ hasDot = false then
        scanNumber fuel input (i + 1) true (acc.push c)
      else (acc, i)
    else (acc, i)

/-- `getTokenLabel`'s scanning loop: consume label runes. -/
def scanLabel : Nat → List Char → Nat → String → String × Nat
  | 0, _, i, acc => (acc, i)
  | fuel + 1, input, i, acc =>
    if h : i < input.length then
      let c := input.get ⟨i, h⟩
      if isLabelRune c then scanLabel fuel input (i + 1) (acc.push c)
      else (acc, i)
    else (acc, i)

/-- `getTokenStringLiteral`: called with the cursor after the opening
quote; consumes raw characters until a closing `'"'`; reaching end of
input first is the `errUnexpectedEOF` error. -/
def scanString : Nat → List Char → Nat → String → Except Err String × Nat
  | 0, _, i, _ => (.error outOfFuel, i)
  | fuel + 1, input, i, acc =>
    if h : i < input.length then
      let c := input.get ⟨i, h⟩
      if c = '"' then (.ok acc, i + 1)
      else scanString fuel input (i + 1) (acc.push c)
    else (.error .unexpectedEOF, i)

/-- Keywords from `shared.go`. -/
def Keyword_Function : String := "fn"
def Keyword_Number : String := "num"
def Keyword_String : String := "str"
def Keyword_Boolean : String := "bool"
def Keyword_List : String := "list"
def Keyword_Map : String := "map"
def Keyword_Object : String := "obj"
def Keyword_True : String := "true"
def Keyword_False : String := "false"
def Keyword_Local : String := "local"

/-- `getTokenLabel`'s boolean reclassification. -/
def mkLabelToken (v : String) : Token :=
  if v = Keyword_True || v = Keyword_False then ⟨.booleanLiteral, v⟩
  else ⟨.label, v⟩

/-- The dispatch of `GetToken`'s outer loop once whitespace and
comments have been skipped: a digit starts a number literal, a label
rune a label, `"` a string literal, `.` a Period, `/` (necessarily not
a comment here) a ForwardSlash, the single-character map covers the
rest, any other character is the invalid-rune error, and end of input
is `io.EOF`. -/
def dispatchToken (input : List Char) (j : Nat) : Except Err Token × Nat :=
  if h : j < input.length then
    let c := input.get ⟨j, h⟩
    if isNumberRune c then
      (.ok ⟨.numberLiteral, (scanNumber (input.length + 1) input j false "").1⟩,
       (scanNumber (input.length + 1) input j false "").2)
    else if isLabelRune c then
      (.ok (mkLabelToken (scanLabel (input.length + 1) input j "").1),
       (scanLabel (input.length + 1) input j "").2)
    else if c = '"' then
      match scanString (input.length + 1) input (j + 1) "" with
      | (.ok v, k) => (.ok ⟨.stringLiteral, v⟩, k)
      | (.error e, k) => (.error e, k)
    else if c = '.' then (.ok ⟨.period, ""⟩, j + 1)
    else if c = '/' then (.ok ⟨.forwardSlash, ""⟩, j + 1)
    else
      match charTokenMap c with
      | some t => (.ok t, j + 1)
      | none => (.error (.invalidRune c), j)
  else (.error .eof, j)

/-- The token-producing core of `GetToken` (everything after the peek
buffer check), acting on the rune slice and cursor. -/
def getTokenAt (input : List Char) (i : Nat) : Except Err Token × Nat :=
  dispatchToken input (skipIgnored (input.length + 1) input i)

/-- `GetToken` from `lexer.go`: drain the peek buffer if present,
otherwise scan the next token (`io.EOF` at end of input). -/
def GetToken (l : Lexer) : Except Err Token × Lexer :=
  match l.buf with
  | some t => (.ok t, { l with buf := none })
  | none =>
      ((getTokenAt l.input l.index).1,
       { l with index := (getTokenAt l.input l.index).2 })

/-- `PeekToken` from `lexer.go`: return the buffered token if present,
otherwise fetch one and buffer it (only on success). -/
def PeekToken (l : Lexer) : Except Err Token × Lexer :=
  match l.buf with
  | some t => (.ok t, l)
  | none =>
      match GetToken l with
      | (.ok t, l₁) => (.ok t, { l₁ with buf := some t })
      | (.error e, l₁) => (.error e, l₁)

/-- `ConsumeToken` from `lexer.go`.  NOTE: the source builds a
"unexpected token, wanted ... got ..." error when the token kind does
not match `expected`, but then executes `return nil`, discarding it; a
kind mismatch therefore succeeds.  This embedding reproduces that
behaviour faithfully. -/
def ConsumeToken (expected : TokenType) (l : Lexer) : Except Err Unit × Lexer :=
  match GetToken l with
  | (.error e, l₁) => (.error e, l₁)
  | (.ok _, l₁) => (.ok (), l₁)

/-- `TokenTypeString` from `lexer.go` (token kinds absent from the
source map fall back to "Undefined", as `Token.String` does). -/
def tokenTypeString : TokenType → String
  | .undefined => "Undefined"
  | .label => "Label"
  | .numberLiteral => "NumberLiteral"
  | .stringLiteral => "StringLiteral"
  | .booleanLiteral => "BooleanLiteral"
  | .plus => "Plus"
  | .minus => "Minus"
  | .asterisk => "Asterisk"
  | .forwardSlash => "ForwardSlash"
  | .openParan => "OpenParan"
  | .closeParan => "CloseParan"
  | .comma => "Comma"
  | .equal => "Equal"
  | .colon => "Colon"
  | .openBracket => "OpenBracket"
  | .closeBracket => "CloseBracket"
  | .period => "Period"
  | .openBrace => "OpenBrace"
  | .closeBrace => "CloseBrace"
  | _ => "Undefined"

/-- `DataType` variants from `shared.go` (the `Object` variant is never
constructed by the parser or the compiler and is omitted; `Custom`
carries only its name, since the source's `Custom.DataType` field is
never populated on any program path). -/
inductive DataType where
  | number
  | str
  | boolean
  | list (listType : DataType)
  | map (keyType valueType : DataType)
  | custom (name : String)
deriving DecidableEq, Repr

/-- `RootType()` from `shared.go`.  On `custom` the source would
dereference the never-populated `DataType` field; that call is
unreachable on the modelled paths and is rendered as the name. -/
def DataType.rootType : DataType → String
  | .number => Keyword_Number
  | .str => Keyword_String
  | .boolean => Keyword_Boolean
  | .list t => "list[" ++ t.rootType ++ "]"
  | .map k v => "map[" ++ k.rootType ++ "][" ++ v.rootType ++ "]"
  | .custom n => n

/-- `String()` from `shared.go`. -/
def DataType.render : DataType → String
  | .number => Keyword_Number
  | .str => Keyword_String
  | .boolean => Keyword_Boolean
  | .list t => "list[" ++ t.render ++ "]"
  | .map k v => "map[" ++ k.rootType ++ "][" ++ v.render ++ "]"
  | .custom n => n

/-- `ZeroValue()` from `shared.go`.  The compiler intercepts `custom`
before ever calling this (`compileDataTypeZeroValue` special-cases it),
so the `custom` branch (a nil dereference in the source) is rendered as
the empty string. -/
def DataType.zeroValue : DataType → String
  | .number => "0"
  | .str => "\"\""
  | .boolean => "false"
  | .list _ => "[]"
  | .map _ _ => "\x7b\x7d"
  | .custom _ => ""

/-- `IllegalKeywords` from `shared.go`. -/
def IllegalKeywords : List String :=
  [Keyword_Function, Keyword_Number, Keyword_String, Keyword_Boolean,
   Keyword_List, Keyword_Map, Keyword_True, Keyword_False]

/-- Expression AST from the parser's `ast.go` (`ExprVariable` is the
`var` constructor; `ExprBinary.Operator` stores the token kind). -/
inductive Expr where
  | block (value : Expr)
  | number (value : String)
  | str (value : String)
  | boolean (value : String)
  | list (values : List Expr)
  | table (pairs : List (Expr × Expr))
  | var (name : String)
  | index (left idx : Expr)
  | propertyAccess (left : Expr) (property : String)
  | binary (left : Expr) (operator : TokenType) (right : Expr)
deriving Repr

/-- Statement AST from the parser's `ast.go` (`FieldTypePair` lists are
`List (String × DataType)`). -/
inductive Stmt where
  | block (stmts : List Stmt)
  | callFunction (functionName : String) (args : List Expr)
  | varDeclare (variableName : String) (dataType : DataType) (expr : Option Expr)
  | varAssign (variableName : String) (expr : Expr)
  | objDefine (name : String) (fields : List (String × DataType))
deriving Repr

/-- Operator precedence levels from `parser.go`. -/
def precedenceLowest : Nat := 0
def precedenceComparison : Nat := 1
def precedenceSum : Nat := 2
def precedenceProduct : Nat := 3

/-- `getPrecedence` from `parser.go`. -/
def getPrecedence : TokenType → Nat
  | .equalEqual => precedenceComparison
  | .bangEqual => precedenceComparison
  | .lessThan => precedenceComparison
  | .lessThanEqual => precedenceComparison
  | .greaterThan => precedenceComparison
  | .greaterThanEqual => precedenceComparison
  | .plus => precedenceSum
  | .minus => precedenceSum
  | .asterisk => precedenceProduct
  | .forwardSlash => precedenceProduct
  | _ => precedenceLowest

/-- `parseExprNumberLiteral` from `parser.go`. -/
def parseExprNumberLiteral (l : Lexer) : Except Err Expr × Lexer :=
  match GetToken l with
  | (.error e, l₁) => (.error (.wrap "failed to get token" e), l₁)
  | (.ok tok, l₁) =>
      if tok.value = "" then (.error (.msg "token value is empty"), l₁)
      else (.ok (.number tok.value), l₁)

/-- `parseExprStringLiteral` from `parser.go`. -/
def parseExprStringLiteral (l : Lexer) : Except Err Expr × Lexer :=
  match GetToken l with
  | (.error e, l₁) => (.error (.wrap "failed to get token" e), l₁)
  | (.ok tok, l₁) => (.ok (.str tok.value), l₁)

/-- `parseExprBooleanLiteral` from `parser.go`. -/
def parseExprBooleanLiteral (l : Lexer) : Except Err Expr × Lexer :=
  match GetToken l with
  | (.error e, l₁) => (.error (.wrap "failed to get token" e), l₁)
  | (.ok tok, l₁) =>
      if tok.value ≠ "true" ∧ tok.value ≠ "false" then
        (.error (.msg ("expected boolean, got: " ++ tokenTypeString tok.type)), l₁)
      else (.ok (.boolean tok.value), l₁)

/-- `parseExprLabel` from `parser.go`. -/
def parseExprLabel (l : Lexer) : Except Err Expr × Lexer :=
  match GetToken l with
  | (.error e, l₁) => (.error (.wrap "failed to get label token" e), l₁)
  | (.ok tok, l₁) =>
      if tok.value = "" then (.error (.msg "label is empty"), l₁)
      else (.ok (.var tok.value), l₁)

mutual

/-- `parseDataType` from `parser.go`: built-in names resolve to their
variants, anything else becomes a `Custom` type name. -/
def parseDataType : Nat → Lexer → Except Err DataType × Lexer
  | 0, l => (.error outOfFuel, l)
  | fuel + 1, l =>
    match GetToken l with
    | (.error e, l₁) => (.error (.wrap "failed to get label token" e), l₁)
    | (.ok tok, l₁) =>
        if tok.type ≠ TokenType.label then
          (.error (.msg ("expected label, got " ++ tokenTypeString tok.type)), l₁)
        else if tok.value = "" then (.error (.msg "data type is empty"), l₁)
        else if tok.value = Keyword_Number then (.ok .number, l₁)
        else if tok.value = Keyword_String then (.ok .str, l₁)
        else if tok.value = Keyword_Boolean then (.ok .boolean, l₁)
        else if tok.value = Keyword_List then
          match parseDataTypeList fuel l₁ with
          | (.error e, l₂) => (.error (.wrap "failed to parse data type list" e), l₂)
          | (.ok dt, l₂) => (.ok dt, l₂)
        else if tok.value = Keyword_Map then
          match parseDataTypeMap fuel l₁ with
          | (.error e, l₂) => (.error (.wrap "failed to parse data type map" e), l₂)
          | (.ok dt, l₂) => (.ok dt, l₂)
        else (.ok (.custom tok.value), l₁)

/-- `parseDataTypeList` from `parser.go`. -/
def parseDataTypeList : Nat → Lexer → Except Err DataType × Lexer
  | 0, l => (.error outOfFuel, l)
  | fuel + 1, l =>
    match GetToken l with
    | (.error e, l₁) => (.error (.wrap "failed to get open bracket token" e), l₁)
    | (.ok tokOpen, l₁) =>
        if tokOpen.type ≠ TokenType.openBracket then
          (.error (.msg ("expected open bracket, got " ++ tokenTypeString tokOpen.type)), l₁)
        else
          match parseDataType fuel l₁ with
          | (.error e, l₂) => (.error (.wrap "failed to parse list sub data type" e), l₂)
          | (.ok sub, l₂) =>
              match GetToken l₂ with
              | (.error e, l₃) => (.error (.wrap "failed to get close bracket token" e), l₃)
              | (.ok tokClose, l₃) =>
                  if tokClose.type ≠ TokenType.closeBracket then
                    (.error (.msg ("expected close bracket, got " ++ tokenTypeString tokClose.type)), l₃)
                  else (.ok (.list sub), l₃)

/-- `parseDataTypeMap` from `parser.go`. -/
def parseDataTypeMap : Nat → Lexer → Except Err DataType × Lexer
  | 0, l => (.error outOfFuel, l)
  | fuel + 1, l =>
    match ConsumeToken .openBracket l with
    | (.error e, l₁) => (.error (.wrap "failed to consume open bracket" e), l₁)
    | (.ok _, l₁) =>
      match parseDataType fuel l₁ with
      | (.error e, l₂) => (.error (.wrap "failed to parse key data type" e), l₂)
      | (.ok keyT, l₂) =>
        match ConsumeToken .colon l₂ with
        | (.error e, l₃) => (.error (.wrap "failed to consume colon separator" e), l₃)
        | (.ok _, l₃) =>
          match parseDataType fuel l₃ with
          | (.error e, l₄) => (.error (.wrap "failed to parse value data type" e), l₄)
          | (.ok valT, l₄) =>
            match ConsumeToken .closeBracket l₄ with
            | (.error e, l₅) => (.error (.wrap "failed to consume close bracket" e), l₅)
            | (.ok _, l₅) => (.ok (.map keyT valT), l₅)

end

mutual

/-- `parseBlock` from `parser.go`: statements until end of input. -/
def parseBlock : Nat → Lexer → Except Err Stmt × Lexer
  | 0, l => (.error outOfFuel, l)
  | fuel + 1, l =>
    match parseBlockLoop fuel [] l with
    | (.error e, l₁) => (.error e, l₁)
    | (.ok stmts, l₁) => (.ok (.block stmts), l₁)

/-- The statement loop of `parseBlock`: stop at `io.EOF`, otherwise
parse a statement, keeping it when non-nil. -/
def parseBlockLoop : Nat → List Stmt → Lexer → Except Err (List Stmt) × Lexer
  | 0, _, l => (.error outOfFuel, l)
  | fuel + 1, acc, l =>
    match PeekToken l with
    | (.error e, l₁) =>
        if e.is .eof then (.ok acc, l₁)
        else (.error (.wrap "failed to peek token" e), l₁)
    | (.ok _, l₁) =>
        match parseStmt fuel l₁ with
        | (.error e, l₂) => (.error (.wrap "failed to parse statement" e), l₂)
        | (.ok none, l₂) => parseBlockLoop fuel acc l₂
        | (.ok (some s), l₂) => parseBlockLoop fuel (acc ++ [s]) l₂

/-- `parseStmt` from `parser.go`: a Label starts a label statement;
any other token contributes no statement (returns nil). -/
def parseStmt : Nat → Lexer → Except Err (Option Stmt) × Lexer
  | 0, l => (.error outOfFuel, l)
  | fuel + 1, l =>
    match PeekToken l with
    | (.error e, l₁) => (.error (.wrap "failed to peek token" e), l₁)
    | (.ok tok, l₁) =>
        if tok.type = TokenType.label then
          match parseStmtLabel fuel l₁ with
          | (.error e, l₂) => (.error (.wrap "failed to parse label" e), l₂)
          | (.ok s, l₂) => (.ok (some s), l₂)
        else (.ok none, l₁)

/-- `parseStmtLabel` from `parser.go`: dispatch on the token after the
label — `(` call, Label declaration (or object definition when the
second label is the `obj` keyword), `=` assignment. -/
def parseStmtLabel : Nat → Lexer → Except Err Stmt × Lexer
  | 0, l => (.error outOfFuel, l)
  | fuel + 1, l =>
    match GetToken l with
    | (.error e, l₁) => (.error (.wrap "failed to get label token" e), l₁)
    | (.ok tokLabel, l₁) =>
      match PeekToken l₁ with
      | (.error e, l₂) => (.error (.wrap "failed to peek token" e), l₂)
      | (.ok tokNext, l₂) =>
          if tokNext.type = TokenType.openParan then
            match parseStmtCallFunction fuel tokLabel l₂ with
            | (.error e, l₃) =>
                (.error (.wrap "failed to parse statement call function" e), l₃)
            | (.ok s, l₃) => (.ok s, l₃)
          else if tokNext.type = TokenType.label then
            if tokNext.value = Keyword_Object then
              match parseStmtObjDefine fuel tokLabel l₂ with
              | (.error e, l₃) =>
                  (.error (.wrap "failed to parse statement object define" e), l₃)
              | (.ok s, l₃) => (.ok s, l₃)
            else
              match parseStmtVarDeclare fuel tokLabel l₂ with
              | (.error e, l₃) =>
                  (.error (.wrap "failed to parse statement variable declare" e), l₃)
              | (.ok s, l₃) => (.ok s, l₃)
          else if tokNext.type = TokenType.equal then
            match parseStmtVarAssign fuel tokLabel l₂ with
            | (.error e, l₃) =>
                (.error (.wrap "failed to parse statement variable assign" e), l₃)
            | (.ok s, l₃) => (.ok s, l₃)
          else
            (.error (.msg ("expected label statement, got " ++
              tokenTypeString tokLabel.type ++ " " ++ tokenTypeString tokNext.type)), l₂)

/-- `parseStmtCallFunction` from `parser.go`. -/
def parseStmtCallFunction : Nat → Token → Lexer → Except Err Stmt × Lexer
  | 0, _, l => (.error outOfFuel, l)
  | fuel + 1, tokLabel, l =>
    match GetToken l with
    | (.error e, l₁) => (.error (.wrap "failed to get open paran token" e), l₁)
    | (.ok _, l₁) =>
      match parseCallArgsLoop fuel [] l₁ with
      | (.error e, l₂) => (.error e, l₂)
      | (.ok args, l₂) => (.ok (.callFunction tokLabel.value args), l₂)

/-- The argument loop of `parseStmtCallFunction`: expressions separated
by commas, terminated by the close parenthesis. -/
def parseCallArgsLoop : Nat → List Expr → Lexer → Except Err (List Expr) × Lexer
  | 0, _, l => (.error outOfFuel, l)
  | fuel + 1, acc, l =>
    match parseExpr fuel l with
    | (.error e, l₁) => (.error (.wrap "failed to parse expression" e), l₁)
    | (.ok expr, l₁) =>
      match PeekToken l₁ with
      | (.error e, l₂) => (.error (.wrap "failed to peek token" e), l₂)
      | (.ok tokNext, l₂) =>
          if tokNext.type = TokenType.closeParan then
            match GetToken l₂ with
            | (.error e, l₃) => (.error (.wrap "failed to get close paran token" e), l₃)
            | (.ok _, l₃) => (.ok (acc ++ [expr]), l₃)
          else if tokNext.type = TokenType.comma then
            match GetToken l₂ with
            | (.error e, l₃) => (.error (.wrap "failed to get comma token" e), l₃)
            | (.ok _, l₃) => parseCallArgsLoop fuel (acc ++ [expr]) l₃
          else
            (.error (.msg ("unexpected token " ++ tokenTypeString tokNext.type)), l₂)

/-- `parseStmtVarDeclare` from `parser.go` (the variant under
`src/unnamed/part_000`, which the compiler's AST matches): rejects
empty and reserved names, parses the declared type, then an optional
`= Expr` initializer (end of input after the type is a valid
initializer-less declaration). -/
def parseStmtVarDeclare : Nat → Token → Lexer → Except Err Stmt × Lexer
  | 0, _, l => (.error outOfFuel, l)
  | fuel + 1, tokLabel, l =>
    if tokLabel.value = "" then (.error (.msg "variable name is empty"), l)
    else if IllegalKeywords.contains tokLabel.value then
      (.error (.msg ("variable name " ++ tokLabel.value ++ " is illegal")), l)
    else
      match parseDataType fuel l with
      | (.error e, l₁) => (.error (.wrap "failed to parse data type" e), l₁)
      | (.ok dataType, l₁) =>
        match PeekToken l₁ with
        | (.error e, l₂) =>
            if e.is .eof then
              (.ok (.varDeclare tokLabel.value dataType none), l₂)
            else (.error (.wrap "failed to peek equal token" e), l₂)
        | (.ok tokEqual, l₂) =>
            if tokEqual.type = TokenType.equal then
              match GetToken l₂ with
              | (.error e, l₃) => (.error (.wrap "failed to consume equal token" e), l₃)
              | (.ok _, l₃) =>
                match parseExpr fuel l₃ with
                | (.error e, l₄) => (.error (.wrap "failed to parse expression" e), l₄)
                | (.ok expr, l₄) =>
                    (.ok (.varDeclare tokLabel.value dataType (some expr)), l₄)
            else (.ok (.varDeclare tokLabel.value dataType none), l₂)

/-- `parseStmtObjDefine` from `parser.go`: `Name obj { (field Type)+ }`. -/
def parseStmtObjDefine : Nat → Token → Lexer → Except Err Stmt × Lexer
  | 0, _, l => (.error outOfFuel, l)
  | fuel + 1, tokLabel, l =>
    if tokLabel.value = "" then (.error (.msg "object name is empty"), l)
    else if IllegalKeywords.contains tokLabel.value then
      (.error (.msg ("variable name " ++ tokLabel.value ++ " is illegal")), l)
    else
      match GetToken l with
      | (.error e, l₁) => (.error (.wrap "failed to consume the obj token" e), l₁)
      | (.ok tokObj, l₁) =>
          if tokObj.value ≠ Keyword_Object then
            (.error (.msg ("expected obj got " ++ tokObj.value)), l₁)
          else
            match ConsumeToken .openBrace l₁ with
            | (.error e, l₂) => (.error (.wrap "failed to consume open brace" e), l₂)
            | (.ok _, l₂) =>
              match parseObjFieldsLoop fuel [] l₂ with
              | (.error e, l₃) => (.error e, l₃)
              | (.ok fields, l₃) => (.ok (.objDefine tokLabel.value fields), l₃)

/-- The field loop of `parseStmtObjDefine`: `Label Type` pairs with no
separator, terminated by the close brace. -/
def parseObjFieldsLoop : Nat → List (String × DataType) → Lexer →
    Except Err (List (String × DataType)) × Lexer
  | 0, _, l => (.error outOfFuel, l)
  | fuel + 1, acc, l =>
    match GetToken l with
    | (.error e, l₁) => (.error (.wrap "failed to get field name token" e), l₁)
    | (.ok tokField, l₁) =>
        if tokField.type ≠ TokenType.label then
          (.error (.msg ("expected label, got " ++ tokenTypeString tokField.type)), l₁)
        else
          match parseDataType fuel l₁ with
          | (.error e, l₂) => (.error (.wrap "failed to parse field type" e), l₂)
          | (.ok fieldType, l₂) =>
            match PeekToken l₂ with
            | (.error e, l₃) => (.error (.wrap "failed to peek token" e), l₃)
            | (.ok tokNext, l₃) =>
                if tokNext.type = TokenType.closeBrace then
                  match GetToken l₃ with
                  | (.error e, l₄) => (.error (.wrap "failed to get close brace token" e), l₄)
                  | (.ok _, l₄) => (.ok (acc ++ [(tokField.value, fieldType)]), l₄)
                else if tokNext.type = TokenType.label then
                  parseObjFieldsLoop fuel (acc ++ [(tokField.value, fieldType)]) l₃
                else
                  (.error (.msg ("unexpected token " ++ tokenTypeString tokNext.type)), l₃)

/-- `parseStmtVarAssign` from `parser.go`. -/
def parseStmtVarAssign : Nat → Token → Lexer → Except Err Stmt × Lexer
  | 0, _, l => (.error outOfFuel, l)
  | fuel + 1, tokLabel, l =>
    if tokLabel.value = "" then (.error (.msg "variable name is empty"), l)
    else
      match GetToken l with
      | (.error e, l₁) => (.error (.wrap "failed to consume equal token" e), l₁)
      | (.ok _, l₁) =>
        match parseExpr fuel l₁ with
        | (.error e, l₂) => (.error (.wrap "failed to parse expression" e), l₂)
        | (.ok expr, l₂) => (.ok (.varAssign tokLabel.value expr), l₂)

/-- `parseExpr` from `parser.go`: a precedence-climbed expression
followed by postfix indexing/property-access chains. -/
def parseExpr : Nat → Lexer → Except Err Expr × Lexer
  | 0, l => (.error outOfFuel, l)
  | fuel + 1, l =>
    match parseExprWithPrecedence fuel 0 l with
    | (.error e, l₁) => (.error e, l₁)
    | (.ok expr, l₁) => parsePostfixLoop fuel expr l₁

/-- The indexing/property-access loop of `parseExpr` (`io.EOF` on peek
ends the expression without error). -/
def parsePostfixLoop : Nat → Expr → Lexer → Except Err Expr × Lexer
  | 0, _, l => (.error outOfFuel, l)
  | fuel + 1, expr, l =>
    match PeekToken l with
    | (.error e, l₁) =>
        if e.is .eof then (.ok expr, l₁)
        else (.error (.wrap "failed to peek token" e), l₁)
    | (.ok tok, l₁) =>
        if tok.type = TokenType.openBracket then
          match GetToken l₁ with
          | (.error e, l₂) => (.error (.wrap "failed to consume open bracket token" e), l₂)
          | (.ok _, l₂) =>
            match parseExpr fuel l₂ with
            | (.error e, l₃) => (.error (.wrap "failed to parse index expression" e), l₃)
            | (.ok indexExpr, l₃) =>
              match PeekToken l₃ with
              | (.error e, l₄) =>
                  (.error (.wrap "failed to peek close bracket token" e), l₄)
              | (.ok tokClose, l₄) =>
                  if tokClose.type ≠ TokenType.closeBracket then
                    (.error (.msg ("expected close bracket, got " ++
                      tokenTypeString tokClose.type)), l₄)
                  else
                    match GetToken l₄ with
                    | (.error e, l₅) =>
                        (.error (.wrap "failed to consume close bracket token" e), l₅)
                    | (.ok _, l₅) => parsePostfixLoop fuel (.index expr indexExpr) l₅
        else if tok.type = TokenType.period then
          match GetToken l₁ with
          | (.error e, l₂) => (.error (.wrap "failed to consume period token" e), l₂)
          | (.ok _, l₂) =>
            match GetToken l₂ with
            | (.error e, l₃) => (.error (.wrap "failed to get property label token" e), l₃)
            | (.ok tokProp, l₃) =>
                if tokProp.type ≠ TokenType.label then
                  (.error (.msg ("expected label after period, got " ++
                    tokenTypeString tokProp.type)), l₃)
                else parsePostfixLoop fuel (.propertyAccess expr tokProp.value) l₃
        else (.ok expr, l₁)

/-- `parseExprWithPrecedence` from `parser.go`: precedence climbing
starting from a base expression. -/
def parseExprWithPrecedence : Nat → Nat → Lexer → Except Err Expr × Lexer
  | 0, _, l => (.error outOfFuel, l)
  | fuel + 1, prec, l =>
    match parseExprBase fuel l with
    | (.error e, l₁) => (.error e, l₁)
    | (.ok expr, l₁) => parsePrecLoop fuel prec expr l₁

/-- The operator loop of `parseExprWithPrecedence` (`io.EOF` on peek
ends the expression without error; a lower-or-equal precedence operator
is left for the caller). -/
def parsePrecLoop : Nat → Nat → Expr → Lexer → Except Err Expr × Lexer
  | 0, _, _, l => (.error outOfFuel, l)
  | fuel + 1, prec, expr, l =>
    match PeekToken l with
    | (.error e, l₁) =>
        if e.is .eof then (.ok expr, l₁)
        else (.error (.wrap "failed to peek token" e), l₁)
    | (.ok tok, l₁) =>
        if getPrecedence tok.type ≤ prec then (.ok expr, l₁)
        else
          match GetToken l₁ with
          | (.error e, l₂) => (.error (.wrap "failed to consume operator token" e), l₂)
          | (.ok _, l₂) =>
            match parseExprWithPrecedence fuel (getPrecedence tok.type) l₂ with
            | (.error e, l₃) =>
                (.error (.wrap "failed to parse right side of operator" e), l₃)
            | (.ok right, l₃) =>
                parsePrecLoop fuel prec (.binary expr tok.type right) l₃

/-- `parseExprBase` from `parser.go`: literals, parenthesized
expressions, list literals, table literals and bare labels. -/
def parseExprBase : Nat → Lexer → Except Err Expr × Lexer
  | 0, l => (.error outOfFuel, l)
  | fuel + 1, l =>
    match PeekToken l with
    | (.error e, l₁) => (.error (.wrap "failed to peek token" e), l₁)
    | (.ok tok, l₁) =>
        if tok.type = TokenType.numberLiteral then
          match parseExprNumberLiteral l₁ with
          | (.error e, l₂) => (.error (.wrap "failed to parse number literal" e), l₂)
          | (.ok expr, l₂) => (.ok expr, l₂)
        else if tok.type = TokenType.stringLiteral then
          match parseExprStringLiteral l₁ with
          | (.error e, l₂) => (.error (.wrap "failed to parse string literal" e), l₂)
          | (.ok expr, l₂) => (.ok expr, l₂)
        else if tok.type = TokenType.booleanLiteral then
          match parseExprBooleanLiteral l₁ with
          | (.error e, l₂) => (.error (.wrap "failed to parse boolean literal" e), l₂)
          | (.ok expr, l₂) => (.ok expr, l₂)
        else if tok.type = TokenType.openParan then
          match GetToken l₁ with
          | (.error e, l₂) => (.error (.wrap "failed to consume open parenthesis" e), l₂)
          | (.ok _, l₂) =>
            match parseExpr fuel l₂ with
            | (.error e, l₃) =>
                (.error (.wrap "failed to parse expression in parentheses" e), l₃)
            | (.ok inner, l₃) =>
              match ConsumeToken .closeParan l₃ with
              | (.error e, l₄) =>
                  (.error (.wrap "failed to consume close parenthesis" e), l₄)
              | (.ok _, l₄) => (.ok (.block inner), l₄)
        else if tok.type = TokenType.openBracket then
          match parseExprList fuel l₁ with
          | (.error e, l₂) => (.error (.wrap "failed to parse list expression" e), l₂)
          | (.ok expr, l₂) => (.ok expr, l₂)
        else if tok.type = TokenType.openBrace then
          match parseExprTable fuel l₁ with
          | (.error e, l₂) => (.error (.wrap "failed to parse table expression" e), l₂)
          | (.ok expr, l₂) => (.ok expr, l₂)
        else if tok.type = TokenType.label then
          match parseExprLabel l₁ with
          | (.error e, l₂) => (.error (.wrap "failed to parse label expression" e), l₂)
          | (.ok expr, l₂) => (.ok expr, l₂)
        else
          (.error (.msg ("expected expression, got " ++ tokenTypeString tok.type)), l₁)

/-- `parseExprList` from `parser.go`. -/
def parseExprList : Nat → Lexer → Except Err Expr × Lexer
  | 0, l => (.error outOfFuel, l)
  | fuel + 1, l =>
    match GetToken l with
    | (.error e, l₁) => (.error (.wrap "failed to consume open bracket" e), l₁)
    | (.ok tokOpen, l₁) =>
        if tokOpen.type ≠ TokenType.openBracket then
          (.error (.msg ("expected open bracket, got " ++
            tokenTypeString tokOpen.type)), l₁)
        else
          match parseListLoop fuel [] l₁ with
          | (.error e, l₂) => (.error e, l₂)
          | (.ok exprs, l₂) => (.ok (.list exprs), l₂)

/-- The element loop of `parseExprList`. -/
def parseListLoop : Nat → List Expr → Lexer → Except Err (List Expr) × Lexer
  | 0, _, l => (.error outOfFuel, l)
  | fuel + 1, acc, l =>
    match parseExpr fuel l with
    | (.error e, l₁) => (.error (.wrap "failed to parse expression" e), l₁)
    | (.ok expr, l₁) =>
      match PeekToken l₁ with
      | (.error e, l₂) => (.error (.wrap "failed to peek token" e), l₂)
      | (.ok tokNext, l₂) =>
          if tokNext.type = TokenType.closeBracket then
            match GetToken l₂ with
            | (.error e, l₃) => (.error (.wrap "failed to get close paran token" e), l₃)
            | (.ok _, l₃) => (.ok (acc ++ [expr]), l₃)
          else if tokNext.type = TokenType.comma then
            match GetToken l₂ with
            | (.error e, l₃) => (.error (.wrap "failed to get comma token" e), l₃)
            | (.ok _, l₃) => parseListLoop fuel (acc ++ [expr]) l₃
          else
            (.error (.msg ("unexpected token " ++ tokenTypeString tokNext.type)), l₂)

/-- `parseExprTable` from `parser.go`: after the open brace the loop
immediately parses a key expression, so the pair list is one-or-more,
and the key/value separator is consumed through `ConsumeToken`
(whose kind mismatch is discarded, see `ConsumeToken`). -/
def parseExprTable : Nat → Lexer → Except Err Expr × Lexer
  | 0, l => (.error outOfFuel, l)
  | fuel + 1, l =>
    match ConsumeToken .openBrace l with
    | (.error e, l₁) => (.error (.wrap "failed to consume open brace token" e), l₁)
    | (.ok _, l₁) =>
      match parseTableLoop fuel [] l₁ with
      | (.error e, l₂) => (.error e, l₂)
      | (.ok pairs, l₂) => (.ok (.table pairs), l₂)

/-- The pair loop of `parseExprTable`. -/
def parseTableLoop : Nat → List (Expr × Expr) → Lexer →
    Except Err (List (Expr × Expr)) × Lexer
  | 0, _, l => (.error outOfFuel, l)
  | fuel + 1, acc, l =>
    match parseExpr fuel l with
    | (.error e, l₁) => (.error (.wrap "failed to parse key expression" e), l₁)
    | (.ok keyExpr, l₁) =>
      match ConsumeToken .colon l₁ with
      | (.error e, l₂) => (.error (.wrap "failed to consume colon" e), l₂)
      | (.ok _, l₂) =>
        match parseExpr fuel l₂ with
        | (.error e, l₃) => (.error (.wrap "failed to parse value expression" e), l₃)
        | (.ok valueExpr, l₃) =>
          match PeekToken l₃ with
          | (.error e, l₄) => (.error (.wrap "failed to peek token" e), l₄)
          | (.ok tokNext, l₄) =>
              if tokNext.type = TokenType.closeBrace then
                match GetToken l₄ with
                | (.error e, l₅) => (.error (.wrap "failed to get close brace token" e), l₅)
                | (.ok _, l₅) => (.ok (acc ++ [(keyExpr, valueExpr)]), l₅)
              else if tokNext.type = TokenType.comma then
                match ConsumeToken .comma l₄ with
                | (.error e, l₅) => (.error (.wrap "failed to consume comma token" e), l₅)
                | (.ok _, l₅) => parseTableLoop fuel (acc ++ [(keyExpr, valueExpr)]) l₅
              else
                (.error (.msg ("unexpected token " ++ tokenTypeString tokNext.type)), l₄)

end

/-- `Parse` from `parser.go`. -/
def Parse (fuel : Nat) (l : Lexer) : Except Err Stmt × Lexer :=
  parseBlock fuel l

/-- A symbol-table entry from `compiler.go`: recording scope depth and
declared type, keyed by variable name. -/
structure VarInfo where
  scope : Nat
  dataType : DataType
deriving DecidableEq, Repr

/-- The `compiler` struct from `compiler.go`.  The Go maps are
association lists observed only through `List.lookup`; a new binding is
consed in front (the compiler inserts a name only after checking it is
absent, so names stay unique), and the block-exit deletion is a filter
on the recorded scope. -/
structure CState where
  out : String
  scope : Nat
  vars : List (String × VarInfo)
  objects : List (String × List (String × DataType))
deriving Repr

def globalScope : Nat := 1

/-- The comma-joining done by the Go emission loops
(`if i < argsLen-1 { sb.WriteRune(',') }`). -/
def goJoin : List String → String
  | [] => ""
  | [s] => s
  | s :: rest => s ++ "," ++ goJoin rest

/-- The key-rendering switch of `compileExprTable` from `compiler.go`:
literal keys are emitted in literal form, bare-variable keys are
wrapped in double quotes, and any other key kind matches no case and
emits nothing. -/
def tableKeyText : Expr → String
  | .number v => v
  | .str v => "\"" ++ v ++ "\""
  | .boolean v => v
  | .var n => "\"" ++ n ++ "\""
  | _ => ""

/-- `%T`-style rendering of an expression's Go type, used only inside
error message text. -/
def exprTypeName : Expr → String
  | .block _ => "parser.ExprBlock"
  | .number _ => "parser.ExprNumber"
  | .str _ => "parser.ExprString"
  | .boolean _ => "parser.ExprBoolean"
  | .list _ => "parser.ExprList"
  | .table _ => "parser.ExprTable"
  | .var _ => "parser.ExprVariable"
  | .index _ _ => "parser.ExprIndex"
  | .propertyAccess _ _ => "parser.ExprPropertyAccess"
  | .binary _ _ _ => "parser.ExprBinary"

/-- Message rendering of an error (`err.Error()` in Go), used where the
source flattens an error into a string with `fmt.Errorf("%s", ...)`. -/
def Err.text : Err → String
  | .eof => "EOF"
  | .unexpectedEOF => "unexpected EOF"
  | .invalidRune c => "invalid rune: " ++ String.singleton c
  | .invalidTypeAssign => "invalid type assign"
  | .varExists n => "variable " ++ n ++ " already exists"
  | .varNotExists n => "variable " ++ n ++ " does not exist"
  | .objExists n => "object definition " ++ n ++ " already exists"
  | .objNotExists n => "object " ++ n ++ " does not exist"
  | .msg s => s
  | .wrap ctx e => ctx ++ ": " ++ e.text
  | .join a b => a.text ++ "\n" ++ b.text

mutual

/-- `compileExpr` from `compiler.go` together with its per-variant
emitters, reimplemented (as the specification's design notes sanction)
with each emission function returning the string fragment the source
would have appended to the shared builder, in the same order.  The
dispatch has no case for `ExprBinary`, so a binary expression falls to
the default "expected expr" error. -/
def compileExpr (vars : List (String × VarInfo)) : Nat → Expr → Except Err String
  | 0, _ => .error outOfFuel
  | fuel + 1, .block v =>
      match compileExprBlock vars fuel v with
      | .error e => .error (.wrap "failed to compile expression block" e)
      | .ok s => .ok s
  | _ + 1, .number v => .ok v
  | _ + 1, .str v => .ok ("\"" ++ v ++ "\"")
  | _ + 1, .boolean v => .ok v
  | fuel + 1, .list values =>
      match compileCommaSeparated vars fuel 0 values with
      | .error e =>
          .error (.wrap "failed to compile expression list"
            (.wrap "failed to compile comma separated expressions" e))
      | .ok s => .ok ("[" ++ s ++ "]")
  | fuel + 1, .table pairs =>
      match compileTablePairs vars fuel 0 pairs with
      | .error e => .error (.wrap "failed to compile expression table" e)
      | .ok s => .ok ("\x7b" ++ s ++ "\x7d")
  | _ + 1, .var n => .ok n
  | fuel + 1, .index left idx =>
      match compileExprIndex vars fuel left idx with
      | .error e => .error (.wrap "failed to compile expression index" e)
      | .ok s => .ok s
  | fuel + 1, .propertyAccess left prop =>
      match compileExpr vars fuel left with
      | .error e =>
          .error (.wrap "failed to compile expression property access"
            (.wrap "failed to compile left side of property access" e))
      | .ok s => .ok (s ++ "." ++ prop)
  | _ + 1, .binary _ _ _ => .error (.msg "expected expr, got: parser.ExprBinary")

/-- `compileExprBlock` from `compiler.go`. -/
def compileExprBlock (vars : List (String × VarInfo)) : Nat → Expr → Except Err String
  | 0, _ => .error outOfFuel
  | fuel + 1, v =>
      match compileExpr vars fuel v with
      | .error e => .error (.wrap "failed to compile expression" e)
      | .ok s => .ok ("(" ++ s ++ ")")

/-- `compileCommaSeparatedExpressions` from `compiler.go`. -/
def compileCommaSeparated (vars : List (String × VarInfo)) :
    Nat → Nat → List Expr → Except Err String
  | 0, _, _ => .error outOfFuel
  | _ + 1, _, [] => .ok ""
  | fuel + 1, i, [e] =>
      match compileExpr vars fuel e with
      | .error err => .error (.wrap ("failed to compile argument " ++ toString i) err)
      | .ok s => .ok s
  | fuel + 1, i, e :: rest =>
      match compileExpr vars fuel e with
      | .error err => .error (.wrap ("failed to compile argument " ++ toString i) err)
      | .ok s =>
          match compileCommaSeparated vars fuel (i + 1) rest with
          | .error err => .error err
          | .ok srest => .ok (s ++ "," ++ srest)

/-- The pair loop of `compileExprTable` from `compiler.go`: each pair
emits its key through `tableKeyText`, a colon, and its compiled value,
comma-separated. -/
def compileTablePairs (vars : List (String × VarInfo)) :
    Nat → Nat → List (Expr × Expr) → Except Err String
  | 0, _, _ => .error outOfFuel
  | _ + 1, _, [] => .ok ""
  | fuel + 1, i, [pair] =>
      match compileExpr vars fuel pair.2 with
      | .error err => .error (.wrap ("failed to compile value " ++ toString i) err)
      | .ok sv => .ok (tableKeyText pair.1 ++ ":" ++ sv)
  | fuel + 1, i, pair :: rest =>
      match compileExpr vars fuel pair.2 with
      | .error err => .error (.wrap ("failed to compile value " ++ toString i) err)
      | .ok sv =>
          match compileTablePairs vars fuel (i + 1) rest with
          | .error err => .error err
          | .ok srest => .ok (tableKeyText pair.1 ++ ":" ++ sv ++ "," ++ srest)

/-- `compileExprIndex` from `compiler.go`: the `+1` index-origin
adjustment applies exactly when the indexed expression is a bare
variable whose symbol-table entry is of List type (the source's
numeric/non-numeric index sub-branches emit identical text). -/
def compileExprIndex (vars : List (String × VarInfo)) :
    Nat → Expr → Expr → Except Err String
  | 0, _, _ => .error outOfFuel
  | fuel + 1, left, idx =>
      match compileExpr vars fuel left with
      | .error e => .error (.wrap "failed to compile left side of index" e)
      | .ok sl =>
          let needsIndexAdjustment : Bool :=
            match left with
            | .var n =>
                match List.lookup n vars with
                | some vi =>
                    match vi.dataType with
                    | .list _ => true
                    | _ => false
                | none => false
            | _ => false
          match compileExpr vars fuel idx with
          | .error e => .error (.wrap "failed to compile index" e)
          | .ok si =>
              if needsIndexAdjustment then .ok (sl ++ "[(" ++ si ++ " + 1)]")
              else .ok (sl ++ "[" ++ si ++ "]")

end

/-- The last-match-wins field search of `checkExpressionValidCustom`
(the Go loop has no `break`, so a later field with the same name
overrides an earlier one). -/
def findField (fields : List (String × DataType)) (keyName : String) :
    Option (String × DataType) :=
  fields.foldl (fun acc f => if f.1 = keyName then some f else acc) none

mutual

/-- `checkExpressionValidDataType` from `compiler.go` with its
per-variant checkers inlined as cases: a purely structural match of a
declared type against an expression's shape. -/
def checkExpressionValidDataType
    (objects : List (String × List (String × DataType))) :
    Nat → DataType → Expr → Except Err Unit
  | 0, _, _ => .error outOfFuel
  | _ + 1, .number, e =>
      match e with
      | .number _ => .ok ()
      | _ => .error (.msg ("expected " ++ Keyword_Number ++ " got " ++ exprTypeName e))
  | _ + 1, .str, e =>
      match e with
      | .str _ => .ok ()
      | _ => .error (.msg ("expected " ++ Keyword_String ++ " got " ++ exprTypeName e))
  | _ + 1, .boolean, e =>
      match e with
      | .boolean _ => .ok ()
      | _ => .error (.msg ("expected " ++ Keyword_Boolean ++ " got " ++ exprTypeName e))
  | fuel + 1, .list t, e =>
      match e with
      | .list values => checkListValues objects fuel t values
      | _ => .error (.msg ("expected " ++ (DataType.list t).render ++ " got " ++
          exprTypeName e))
  | fuel + 1, .map kt vt, e =>
      match e with
      | .table pairs => checkMapPairs objects fuel kt vt pairs
      | _ => .error (.msg ("expected " ++ (DataType.map kt vt).render ++ " got " ++
          exprTypeName e))
  | fuel + 1, .custom n, e =>
      match e with
      | .table pairs =>
          match List.lookup n objects with
          | none => .error (.msg ("object " ++ n ++ " not found"))
          | some fields => checkCustomPairs objects fuel n fields pairs
      | _ => .error (.msg ("expected " ++ n ++ " got " ++ exprTypeName e))

/-- The element loop of `checkExpressionValidList`. -/
def checkListValues (objects : List (String × List (String × DataType))) :
    Nat → DataType → List Expr → Except Err Unit
  | 0, _, _ => .error outOfFuel
  | _ + 1, _, [] => .ok ()
  | fuel + 1, t, v :: rest =>
      match checkExpressionValidDataType objects fuel t v with
      | .error e => .error (.wrap "failed to check if list type is valid data type" e)
      | .ok () => checkListValues objects fuel t rest

/-- The pair loop of `checkExpressionValidMap`. -/
def checkMapPairs (objects : List (String × List (String × DataType))) :
    Nat → DataType → DataType → List (Expr × Expr) → Except Err Unit
  | 0, _, _, _ => .error outOfFuel
  | _ + 1, _, _, [] => .ok ()
  | fuel + 1, kt, vt, p :: rest =>
      match checkExpressionValidDataType objects fuel kt p.1 with
      | .error e => .error (.wrap "failed to check if map key type is valid data type" e)
      | .ok () =>
          match checkExpressionValidDataType objects fuel vt p.2 with
          | .error e =>
              .error (.wrap "failed to check if map value type is valid data type" e)
          | .ok () => checkMapPairs objects fuel kt vt rest

/-- The pair loop of `checkExpressionValidCustom`: every key must be a
bare-variable label naming a registered field, whose declared type the
value must recursively match (a value failure propagates unwrapped, as
in the source). -/
def checkCustomPairs (objects : List (String × List (String × DataType))) :
    Nat → String → List (String × DataType) → List (Expr × Expr) → Except Err Unit
  | 0, _, _, _ => .error outOfFuel
  | _ + 1, _, _, [] => .ok ()
  | fuel + 1, n, fields, p :: rest =>
      match p.1 with
      | .var keyName =>
          match findField fields keyName with
          | none => .error (.msg ("key " ++ keyName ++ " not found in object " ++ n))
          | some f =>
              match checkExpressionValidDataType objects fuel f.2 p.2 with
              | .error e => .error e
              | .ok () => checkCustomPairs objects fuel n fields rest
      | _ => .error (.msg ("field type " ++ exprTypeName p.1 ++ " not a label"))

end

mutual

/-- `compileDataTypeZeroValue` from `compiler.go`: `Custom` types are
expanded through the object registry, every other variant emits its
`ZeroValue()` string.  The registry recursion is fueled because the
source would not terminate on a cyclic registry. -/
def compileDataTypeZeroValue (objects : List (String × List (String × DataType))) :
    Nat → DataType → Except Err String
  | 0, _ => .error outOfFuel
  | fuel + 1, .custom n => compileObjectZeroValue objects fuel n
  | _ + 1, dt => .ok dt.zeroValue

/-- `compileObjectZeroValue` from `compiler.go`: the registered
object's fields in declaration order, each set to its own zero value,
recursively. -/
def compileObjectZeroValue (objects : List (String × List (String × DataType))) :
    Nat → String → Except Err String
  | 0, _ => .error outOfFuel
  | fuel + 1, n =>
      match List.lookup n objects with
      | none => .error (.objNotExists n)
      | some fields =>
          match zeroFieldsLoop objects fuel fields with
          | .error e => .error e
          | .ok s => .ok ("\x7b" ++ s ++ "\x7d")

/-- The field loop of `compileObjectZeroValue`. -/
def zeroFieldsLoop (objects : List (String × List (String × DataType))) :
    Nat → List (String × DataType) → Except Err String
  | 0, _ => .error outOfFuel
  | _ + 1, [] => .ok ""
  | fuel + 1, [f] =>
      match compileDataTypeZeroValue objects fuel f.2 with
      | .error e => .error e
      | .ok z => .ok ("\"" ++ f.1 ++ "\":" ++ z)
  | fuel + 1, f :: rest =>
      match compileDataTypeZeroValue objects fuel f.2 with
      | .error e => .error e
      | .ok z =>
          match zeroFieldsLoop objects fuel rest with
          | .error e => .error e
          | .ok srest => .ok ("\"" ++ f.1 ++ "\":" ++ z ++ "," ++ srest)

end

/-- The `providedFields` map built by `compileExprTableWithZeroValues`:
pairs whose key is a bare variable, keyed by that name; a later pair
with the same name overrides an earlier one (Go map assignment), which
the front-consed association list reproduces under `List.lookup`. -/
def providedFields (pairs : List (Expr × Expr)) : List (String × Expr) :=
  pairs.foldl
    (fun acc p =>
      match p.1 with
      | .var n => (n, p.2) :: acc
      | _ => acc)
    []

mutual

/-- `compileExprTableWithZeroValues` from `compiler.go`: emit the
registered object's full field set in declaration order; a field
present in the literal keeps its value (recursively expanded when it is
itself a table assigned to a registered-object field), an absent field
gets its zero value. -/
def compileExprTableWithZeroValues
    (objects : List (String × List (String × DataType)))
    (vars : List (String × VarInfo)) :
    Nat → List (Expr × Expr) → String → Except Err String
  | 0, _, _ => .error outOfFuel
  | fuel + 1, pairs, objName =>
      match List.lookup objName objects with
      | none => .error (.objNotExists objName)
      | some fields =>
          match tableZVFieldsLoop objects vars fuel (providedFields pairs) fields with
          | .error e => .error e
          | .ok s => .ok ("\x7b" ++ s ++ "\x7d")

/-- One field of `compileExprTableWithZeroValues`'s emission loop:
provided value (recursive for tables assigned to registered-object
fields) or zero value. -/
def tableZVField (objects : List (String × List (String × DataType)))
    (vars : List (String × VarInfo)) :
    Nat → List (String × Expr) → String × DataType → Except Err String
  | 0, _, _ => .error outOfFuel
  | fuel + 1, provided, f =>
      match List.lookup f.1 provided with
      | some value =>
          match value, f.2 with
          | .table ps, .custom m =>
              if (List.lookup m objects).isSome then
                match compileExprTableWithZeroValues objects vars fuel ps m with
                | .error e =>
                    .error (.wrap
                      ("failed to compile nested table with zero values for field " ++ f.1) e)
                | .ok s => .ok s
              else
                match compileExpr vars fuel value with
                | .error e =>
                    .error (.wrap ("failed to compile value for field " ++ f.1) e)
                | .ok s => .ok s
          | _, _ =>
              match compileExpr vars fuel value with
              | .error e => .error (.wrap ("failed to compile value for field " ++ f.1) e)
              | .ok s => .ok s
      | none =>
          match compileDataTypeZeroValue objects fuel f.2 with
          | .error e => .error (.wrap ("failed to compile zero value for field " ++ f.1) e)
          | .ok z => .ok z

/-- The field loop of `compileExprTableWithZeroValues`. -/
def tableZVFieldsLoop (objects : List (String × List (String × DataType)))
    (vars : List (String × VarInfo)) :
    Nat → List (String × Expr) → List (String × DataType) → Except Err String
  | 0, _, _ => .error outOfFuel
  | _ + 1, _, [] => .ok ""
  | fuel + 1, provided, [f] =>
      match tableZVField objects vars fuel provided f with
      | .error e => .error e
      | .ok x => .ok ("\"" ++ f.1 ++ "\":" ++ x)
  | fuel + 1, provided, f :: rest =>
      match tableZVField objects vars fuel provided f with
      | .error e => .error e
      | .ok x =>
          match tableZVFieldsLoop objects vars fuel provided rest with
          | .error e => .error e
          | .ok srest => .ok ("\"" ++ f.1 ++ "\":" ++ x ++ "," ++ srest)

end

/-- `compileStmtCallFunction` from `compiler.go`:
`name(arg1,arg2,...)`. -/
def compileStmtCallFunction (fuel : Nat) (name : String) (args : List Expr)
    (c : CState) : Except Err CState :=
  match compileCommaSeparated c.vars fuel 0 args with
  | .error e => .error (.wrap "failed to compile comma separated expressions" e)
  | .ok s => .ok { c with out := c.out ++ name ++ "(" ++ s ++ ")" }

/-- `compileStmtVarDeclare` from `compiler.go`: redeclaration is
checked by a bare name lookup in the symbol table; the variable is then
registered at the current scope depth; `local ` is emitted outside the
global scope; the initializer is the declared type's zero value when
absent, a zero-filled object table when it is a table literal assigned
to a registered-object Custom type, and the compiled expression
otherwise. -/
def compileStmtVarDeclare (fuel : Nat) (name : String) (dt : DataType)
    (exprOpt : Option Expr) (c : CState) : Except Err CState :=
  if (List.lookup name c.vars).isSome then .error (.varExists name)
  else
    let vars' := (name, VarInfo.mk c.scope dt) :: c.vars
    let pre := (if c.scope ≠ globalScope then Keyword_Local ++ " " else "") ++
      name ++ " = "
    match exprOpt with
    | none =>
        match compileDataTypeZeroValue c.objects fuel dt with
        | .error e => .error (.wrap "failed to compile data type zero value" e)
        | .ok z => .ok { c with vars := vars', out := c.out ++ pre ++ z }
    | some expr =>
        match expr, dt with
        | .table ps, .custom n =>
            if (List.lookup n c.objects).isSome then
              match compileExprTableWithZeroValues c.objects vars' fuel ps n with
              | .error e =>
                  .error (.wrap "failed to compile expression table with zero values" e)
              | .ok s => .ok { c with vars := vars', out := c.out ++ pre ++ s }
            else
              match compileExpr vars' fuel expr with
              | .error e => .error (.wrap "failed to parse expression" e)
              | .ok s => .ok { c with vars := vars', out := c.out ++ pre ++ s }
        | _, _ =>
            match compileExpr vars' fuel expr with
            | .error e => .error (.wrap "failed to parse expression" e)
            | .ok s => .ok { c with vars := vars', out := c.out ++ pre ++ s }

/-- `compileStmtVarAssign` from `compiler.go`: the name must be in the
symbol table; a bare-variable right-hand side is checked by declared
display-string equality, any other expression by the structural check;
a failure is joined onto `ErrInvalidTypeAssign` (with the inner error
flattened to its message text, as the source does); emission then
mirrors declaration, including the zero-filled object-table special
case. -/
def compileStmtVarAssign (fuel : Nat) (name : String) (expr : Expr) (c : CState) :
    Except Err CState :=
  match List.lookup name c.vars with
  | none => .error (.varNotExists name)
  | some v =>
      let checked : Except Err Unit :=
        match expr with
        | .var en =>
            match List.lookup en c.vars with
            | none => .error (.varNotExists en)
            | some ev =>
                if v.dataType.render ≠ ev.dataType.render then
                  .error (.join .invalidTypeAssign
                    (.msg ("wanted " ++ v.dataType.render ++ " got " ++ ev.dataType.render)))
                else .ok ()
        | _ =>
            match checkExpressionValidDataType c.objects fuel v.dataType expr with
            | .error e => .error (.join .invalidTypeAssign (.msg e.text))
            | .ok () => .ok ()
      match checked with
      | .error e => .error e
      | .ok () =>
          let pre := name ++ " = "
          match expr, v.dataType with
          | .table ps, .custom n =>
              if (List.lookup n c.objects).isSome then
                match compileExprTableWithZeroValues c.objects c.vars fuel ps n with
                | .error e =>
                    .error (.wrap "failed to compile expression table with zero values" e)
                | .ok s => .ok { c with out := c.out ++ pre ++ s }
              else
                match compileExpr c.vars fuel expr with
                | .error e => .error (.wrap "failed to parse expression" e)
                | .ok s => .ok { c with out := c.out ++ pre ++ s }
          | _, _ =>
              match compileExpr c.vars fuel expr with
              | .error e => .error (.wrap "failed to parse expression" e)
              | .ok s => .ok { c with out := c.out ++ pre ++ s }

/-- `compileStmtObjDefine` from `compiler.go`: register the fields
under the name (flat namespace, never removed); no output. -/
def compileStmtObjDefine (name : String) (fields : List (String × DataType))
    (c : CState) : Except Err CState :=
  if (List.lookup name c.objects).isSome then .error (.objExists name)
  else .ok { c with objects := (name, fields) :: c.objects }

mutual

/-- `compileStmt` from `compiler.go`: dispatch with per-case error
wrapping; the `StmtBlock` case is `compileStmtBlock`: increment the
scope depth, compile each child followed by a newline, then delete
every symbol-table entry recorded at the block's depth and restore the
depth counter. -/
def compileStmt : Nat → Stmt → CState → Except Err CState
  | 0, _, _ => .error outOfFuel
  | fuel + 1, .block stmts, c =>
      match compileStmtBlockLoop fuel stmts { c with scope := c.scope + 1 } with
      | .error e => .error (.wrap "failed to compile statement block" e)
      | .ok c₂ =>
          .ok { c₂ with vars := c₂.vars.filter (fun p => p.2.scope ≠ c.scope + 1),
                        scope := c.scope }
  | fuel + 1, .callFunction name args, c =>
      match compileStmtCallFunction fuel name args c with
      | .error e => .error (.wrap "failed to compile statement call function" e)
      | .ok c₁ => .ok c₁
  | fuel + 1, .varDeclare name dt exprOpt, c =>
      match compileStmtVarDeclare fuel name dt exprOpt c with
      | .error e => .error (.wrap "failed to compile statement variable declare" e)
      | .ok c₁ => .ok c₁
  | fuel + 1, .varAssign name expr, c =>
      match compileStmtVarAssign fuel name expr c with
      | .error e => .error (.wrap "failed to compile statement assign" e)
      | .ok c₁ => .ok c₁
  | _ + 1, .objDefine name fields, c =>
      match compileStmtObjDefine name fields c with
      | .error e => .error (.wrap "failed to compile statement object define" e)
      | .ok c₁ => .ok c₁

/-- The child loop of `compileStmtBlock`: each statement's output is
followed by a newline. -/
def compileStmtBlockLoop : Nat → List Stmt → CState → Except Err CState
  | 0, _, _ => .error outOfFuel
  | _ + 1, [], c => .ok c
  | fuel + 1, s :: rest, c =>
      match compileStmt fuel s c with
      | .error e => .error (.wrap "failed to compile stmt" e)
      | .ok c₁ => compileStmtBlockLoop fuel rest { c₁ with out := c₁.out ++ "\n" }

end

/-- `Compile` from `compiler.go`: a fresh compiler state (empty output,
scope depth 0, empty symbol table and object registry) compiles the
root statement. -/
def Compile (fuel : Nat) (node : Stmt) : Except Err String :=
  match compileStmt fuel node (CState.mk "" 0 [] []) with
  | .error e => .error (.wrap "failed to compile statement" e)
  | .ok c => .ok c.out

/-- The full pipeline as exercised by `compiler_test.go`: lex and parse
the source text, then compile the resulting root block. -/
def compileProgram (fuel : Nat) (source : String) : Except Err String :=
  match (Parse fuel (Lexer.new source)).1 with
  | .error e => .error e
  | .ok node => Compile fuel node

/-- Whether a compilation result is a success. -/
def isOkE {α : Type} : Except Err α → Bool
  | .ok _ => true
  | .error _ => false

/-- The result of the `(n+1)`-th of `n+1` consecutive `PeekToken`
calls, each performed on the lexer state left by the previous one. -/
def peekN : Nat → Lexer → Except Err Token × Lexer
  | 0, l => PeekToken l
  | n + 1, l => peekN n (PeekToken l).2

/-- The index-adjustment condition of `compileExprIndex`, as the
specification words it: the indexed expression is a bare variable whose
symbol-table entry has List type. -/
def isListVariable (vars : List (String × VarInfo)) : Expr → Bool
  | .var n =>
      match List.lookup n vars with
      | some vi =>
          match vi.dataType with
          | .list _ => true
          | _ => false
      | none => false
  | _ => false

mutual

/-- Spec-side zero-value text, following the specification's words:
`Number` gives `0`, `String` gives `""`, `Boolean` gives `false`,
`List` gives `[]`, `Map` gives an empty table, and a `Custom` type
resolving to a registered object gives a table literal listing every
declared field set to its own zero value, recursively (`none` when the
object is unregistered or the registry recursion exceeds the fuel).
Compared against `compileDataTypeZeroValue` by refinement. -/
def zeroValueTextSpec (objects : List (String × List (String × DataType))) :
    Nat → DataType → Option String
  | 0, _ => none
  | _ + 1, .number => some "0"
  | _ + 1, .str => some "\"\""
  | _ + 1, .boolean => some "false"
  | _ + 1, .list _ => some "[]"
  | _ + 1, .map _ _ => some "\x7b\x7d"
  | fuel + 1, .custom n =>
      match List.lookup n objects with
      | none => none
      | some fields =>
          match zeroFieldsSpec objects fuel fields with
          | none => none
          | some parts => some ("\x7b" ++ goJoin parts ++ "\x7d")

/-- Spec-side rendering of an object's fields at their zero values, in
declaration order. -/
def zeroFieldsSpec (objects : List (String × List (String × DataType))) :
    Nat → List (String × DataType) → Option (List String)
  | 0, _ => none
  | _ + 1, [] => some []
  | fuel + 1, f :: rest =>
      match zeroValueTextSpec objects fuel f.2, zeroFieldsSpec objects fuel rest with
      | some z, some zs => some (("\"" ++ f.1 ++ "\":" ++ z) :: zs)
      | _, _ => none

end

/-- Success projection of an expression compilation, for the spec-side
table expansion. -/
def exceptToOption : Except Err String → Option String
  | .ok s => some s
  | .error _ => none

mutual

/-- Spec-side object-literal expansion, following the specification's
words: the emitted table holds exactly the registered object's declared
fields in definition order; a field named by a bare-variable key of the
literal keeps its (compiled) given value — itself expanded the same way
when it is a table assigned to a registered-object field — and an
absent field gets its zero value.  Compared against
`compileExprTableWithZeroValues` by refinement. -/
def expandTableSpec (objects : List (String × List (String × DataType)))
    (vars : List (String × VarInfo)) :
    Nat → List (Expr × Expr) → String → Option String
  | 0, _, _ => none
  | fuel + 1, pairs, objName =>
      match List.lookup objName objects with
      | none => none
      | some fields =>
          match expandFieldsSpec objects vars fuel fields (providedFields pairs) with
          | none => none
          | some parts => some ("\x7b" ++ goJoin parts ++ "\x7d")

/-- Spec-side per-field choice of the object-literal expansion. -/
def expandFieldSpec (objects : List (String × List (String × DataType)))
    (vars : List (String × VarInfo)) :
    Nat → List (String × Expr) → String × DataType → Option String
  | 0, _, _ => none
  | fuel + 1, provided, f =>
      match List.lookup f.1 provided with
      | some value =>
          match value, f.2 with
          | .table ps, .custom m =>
              if (List.lookup m objects).isSome then
                expandTableSpec objects vars fuel ps m
              else exceptToOption (compileExpr vars fuel value)
          | _, _ => exceptToOption (compileExpr vars fuel value)
      | none => zeroValueTextSpec objects fuel f.2

/-- Spec-side field list of the object-literal expansion, in
declaration order. -/
def expandFieldsSpec (objects : List (String × List (String × DataType)))
    (vars : List (String × VarInfo)) :
    Nat → List (String × DataType) → List (String × Expr) → Option (List String)
  | 0, _, _ => none
  | _ + 1, [], _ => some []
  | fuel + 1, f :: rest, provided =>
      match expandFieldSpec objects vars fuel provided f,
            expandFieldsSpec objects vars fuel rest provided with
      | some x, some xs => some (("\"" ++ f.1 ++ "\":" ++ x) :: xs)
      | _, _ => none

end

theorem scanString_error (fuel : Nat) (input : List Char) (i : Nat) (acc : String)
    (e : Err) (k : Nat) (h : scanString fuel input i acc = (.error e, k)) :
    e = .unexpectedEOF ∨ e = outOfFuel := by
  induction fuel generalizing i acc with
  | zero =>
      rw [scanString] at h
      simp only [Prod.mk.injEq, Except.error.injEq] at h
      exact Or.inr h.1.symm
  | succ fuel ih =>
      rw [scanString] at h
      split at h
      · simp only [] at h
        split at h
        · simp at h
        · exact ih (i + 1) _ h
      · simp only [Prod.mk.injEq, Except.error.injEq] at h
        exact Or.inl h.1.symm

theorem dispatchToken_invalidRune (input : List Char) (j : Nat) (c : Char) (k : Nat)
    (h : dispatchToken input j = (.error (.invalidRune c), k)) : k = j := by
  rw [dispatchToken] at h
  split at h
  · rename_i hj
    simp only [] at h
    split at h
    · simp at h
    · split at h
      · simp at h
      · split at h
        · split at h
          · simp at h
          · rename_i heq
            simp only [Prod.mk.injEq, Except.error.injEq] at h
            obtain ⟨h1, h2⟩ := h
            rcases scanString_error (input.length + 1) input (j + 1) "" _ _ heq with
              he | he <;> rw [he] at h1 <;> exact absurd h1 (by simp [outOfFuel])
        · split at h
          · simp at h
          · split at h
            · simp at h
            · split at h
              · simp at h
              · simp only [Prod.mk.injEq, Except.error.injEq,
                  Err.invalidRune.injEq] at h
                exact h.2.symm
  · simp at h

theorem getToken_buf_none (l : Lexer) (h : l.buf = none) :
    ((GetToken l).2).buf = none := by
  simp [GetToken, h]

/-- C10: when `GetToken` hits a character matching no token rule it
returns the invalid-character error without advancing past it, so the
resulting lexer state is a fixpoint: every subsequent `GetToken` call
returns the same invalid-character error with the same state. -/
theorem claim_C10 (l l' : Lexer) (c : Char)
    (h : GetToken l = (.error (.invalidRune c), l')) :
    GetToken l' = (.error (.invalidRune c), l') := by
  cases hb : l.buf with
  | some t => rw [GetToken, hb] at h; simp at h
  | none =>
      rw [GetToken, hb] at h
      have h1 : (getTokenAt l.input l.index).1 = .error (.invalidRune c) := by
        have := congrArg Prod.fst h; simpa using this
      have h2 : l' = Lexer.mk l.input (getTokenAt l.input l.index).2 none := by
        have := congrArg Prod.snd h; simpa using this.symm
      have h1' : (dispatchToken l.input
          (skipIgnored (l.input.length + 1) l.input l.index)).1 =
          .error (.invalidRune c) := by
        rw [getTokenAt] at h1; exact h1
      have hP : dispatchToken l.input
          (skipIgnored (l.input.length + 1) l.input l.index) =
          (.error (.invalidRune c),
           (dispatchToken l.input
             (skipIgnored (l.input.length + 1) l.input l.index)).2) :=
        Prod.ext h1' rfl
      have hk : (dispatchToken l.input
          (skipIgnored (l.input.length + 1) l.input l.index)).2 =
          skipIgnored (l.input.length + 1) l.input l.index :=
        dispatchToken_invalidRune l.input
          (skipIgnored (l.input.length + 1) l.input l.index) c _ hP
      have hk2 : (getTokenAt l.input l.index).2 =
          skipIgnored (l.input.length + 1) l.input l.index := by
        rw [getTokenAt]; exact hk
      have hfix : skipIgnored (l.input.length + 1) l.input
          (skipIgnored (l.input.length + 1) l.input l.index) =
          skipIgnored (l.input.length + 1) l.input l.index :=
        skipIgnored_eq_self (l.input.length + 1) l.input _
          (skipIgnored_cond (l.input.length + 1) l.input l.index (by omega))
      subst h2
      rw [GetToken]
      simp only []
      rw [hk2]
      have hga : getTokenAt l.input
          (skipIgnored (l.input.length + 1) l.input l.index) =
          (.error (.invalidRune c),
           skipIgnored (l.input.length + 1) l.input l.index) := by
        rw [getTokenAt, hfix]
        rw [hP, hk]
      rw [hga]

/-- C10 witness: the single-character input `$`. -/
theorem claim_C10_witness :
    GetToken (Lexer.new "$") = (.error (.invalidRune '$'), Lexer.mk ['$'] 0 none) ∧
    GetToken (Lexer.mk ['$'] 0 none) =
      (.error (.invalidRune '$'), Lexer.mk ['$'] 0 none) :=
  ⟨by rfl, claim_C10 (Lexer.new "$") (Lexer.mk ['$'] 0 none) '$' (by rfl)⟩

/-- C9 is stated over every input string; it fails on inputs whose
first token errors: on the unterminated string `"abc` the first
`PeekToken` consumes the input while reporting the unterminated-string
error, so a second `PeekToken` reports plain end-of-input — two
consecutive peeks return different errors. -/
theorem claim_C9_counterexample :
    (PeekToken (Lexer.new "\"abc")).1 = .error .unexpectedEOF ∧
    (PeekToken (PeekToken (Lexer.new "\"abc")).2).1 = .error .eof ∧
    Err.unexpectedEOF ≠ Err.eof :=
  ⟨by rfl, by rfl, by decide⟩

/-- C9 (amended to successful peeks): when `PeekToken` returns a token,
the resulting state is a fixpoint of `PeekToken` (so any number of
consecutive peeks returns the identical token without consuming
input), and `GetToken` — from the peeked state or the original one —
returns that same token and advances by exactly this one token (it
merely drains the peek buffer). -/
theorem claim_C9 (l : Lexer) (t : Token) (l' : Lexer)
    (h : PeekToken l = (.ok t, l')) :
    PeekToken l' = (.ok t, l') ∧
    GetToken l' = (.ok t, { l' with buf := none }) ∧
    GetToken l = (.ok t, { l' with buf := none }) ∧
    ∀ n : Nat, peekN n l = (.ok t, l') := by
  have key : l'.buf = some t ∧ GetToken l = (.ok t, { l' with buf := none }) := by
    cases hb : l.buf with
    | some t0 =>
        rw [PeekToken, hb] at h
        simp only [Prod.mk.injEq, Except.ok.injEq] at h
        obtain ⟨h1, h2⟩ := h
        subst h1
        subst h2
        exact ⟨hb, by rw [GetToken, hb]⟩
    | none =>
        rw [PeekToken, hb] at h
        rcases hg : GetToken l with ⟨r, l₁⟩
        rw [hg] at h
        cases r with
        | ok t1 =>
            simp only [Prod.mk.injEq, Except.ok.injEq] at h
            obtain ⟨h1, h2⟩ := h
            subst h1
            subst h2
            have hbuf1 : l₁.buf = none := by
              have := getToken_buf_none l hb
              rw [hg] at this
              exact this
            refine ⟨rfl, ?_⟩
            obtain ⟨i1, i2, b1⟩ := l₁
            simp_all
        | error e => simp at h
  obtain ⟨hbuf, hget⟩ := key
  have hpeek : PeekToken l' = (.ok t, l') := by rw [PeekToken, hbuf]
  have hget' : GetToken l' = (.ok t, { l' with buf := none }) := by
    rw [GetToken, hbuf]
  have fix : ∀ m, peekN m l' = (.ok t, l') := by
    intro m
    induction m with
    | zero => simpa [peekN] using hpeek
    | succ m ihm =>
        rw [peekN, hpeek]
        exact ihm
  refine ⟨hpeek, hget', hget, ?_⟩
  intro n
  cases n with
  | zero => simpa [peekN] using h
  | succ n =>
      rw [peekN, h]
      exact fix n

/-- C9 witness: the input `hello`. -/
theorem claim_C9_witness :
    PeekToken (Lexer.new "hello") =
      (.ok ⟨.label, "hello"⟩,
       Lexer.mk "hello".data 5 (some ⟨.label, "hello"⟩)) ∧
    PeekToken (Lexer.mk "hello".data 5 (some ⟨.label, "hello"⟩)) =
      (.ok ⟨.label, "hello"⟩,
       Lexer.mk "hello".data 5 (some ⟨.label, "hello"⟩)) :=
  ⟨by rfl, (claim_C9 (Lexer.new "hello") ⟨.label, "hello"⟩
    (Lexer.mk "hello".data 5 (some ⟨.label, "hello"⟩)) (by rfl)).1⟩

set_option maxHeartbeats 4000000 in
/-- C1: `ConsumeToken` constructs the expected-vs-found error on a
token-kind mismatch but then returns `nil`, discarding it, so parses
that reach a mismatch through `ConsumeToken` do not abort: the input
`print({1 2 3})`, whose table literal lacks the colon between key and
value, parses successfully (the `2` is silently consumed in place of
the colon), instead of failing with the expected/found error. -/
theorem claim_C1 :
    (Parse 50 (Lexer.new "print(\x7b1 2 3\x7d)")).1 =
      .ok (.block [.callFunction "print" [.table [(.number "1", .number "3")]]]) ∧
    (ConsumeToken .colon (Lexer.new "2")).1 = .ok () ∧
    (GetToken (Lexer.new "2")).1 = .ok ⟨.numberLiteral, "2"⟩ :=
  ⟨by rfl, by rfl, by rfl⟩

theorem parseTableLoop_length (fuel : Nat) (acc : List (Expr × Expr)) (l : Lexer)
    (ps : List (Expr × Expr)) (l' : Lexer)
    (h : parseTableLoop fuel acc l = (.ok ps, l')) :
    acc.length + 1 ≤ ps.length := by
  induction fuel generalizing acc l with
  | zero => rw [parseTableLoop] at h; simp at h
  | succ fuel ih =>
      rw [parseTableLoop] at h
      repeat' split at h
      all_goals first
        | (simp only [Prod.mk.injEq, Except.ok.injEq] at h
           obtain ⟨h1, h2⟩ := h
           subst h1
           simp)
        | (simp at h)
        | (have hacc := ih _ _ h; simp at hacc ⊢; omega)

/-- C8: the table-literal grammar in the source is one-or-more pairs,
not zero-or-more: `parseExprTable` parses a key expression immediately
after the open brace, so the input `{}` fails with an
expected-expression error, while every successfully parsed table
literal has at least one pair (`{1:2}` parses to a one-pair table). -/
theorem claim_C8 :
    (parseExprTable 50 (Lexer.new "\x7b1:2\x7d")).1 =
      .ok (.table [(.number "1", .number "2")]) ∧
    ∀ (fuel : Nat) (l : Lexer) (pairs : List (Expr × Expr)) (l' : Lexer),
      parseExprTable fuel l = (.ok (.table pairs), l') → pairs ≠ [] := by
  refine ⟨by rfl, ?_⟩
  intro fuel l pairs l' h
  cases fuel with
  | zero => rw [parseExprTable] at h; simp at h
  | succ fuel =>
      rw [parseExprTable] at h
      split at h
      · simp at h
      · split at h
        · simp at h
        · rename_i heq
          simp only [Prod.mk.injEq, Except.ok.injEq, Expr.table.injEq] at h
          obtain ⟨h1, h2⟩ := h
          subst h1
          have := parseTableLoop_length fuel [] _ _ _ heq
          intro hnil
          rw [hnil] at this
          simp at this

/-- C8 counterexample: the claim states that `{}` parses successfully
as a table expression with an empty pair list; it does not — the key
parse fails with an expected-expression error. -/
theorem claim_C8_counterexample :
    (parseExprTable 50 (Lexer.new "\x7b\x7d")).1 =
      .error (.wrap "failed to parse key expression"
        (.msg "expected expression, got CloseBrace")) := by
  rfl

/-- C8 witness: `{1:2}` instantiates the nonemptiness statement. -/
theorem claim_C8_witness :
    ([((Expr.number "1"), (Expr.number "2"))] : List (Expr × Expr)) ≠ [] :=
  claim_C8.2 50 (Lexer.new "\x7b1:2\x7d") [(Expr.number "1", Expr.number "2")]
    (parseExprTable 50 (Lexer.new "\x7b1:2\x7d")).2 (by rfl)

set_option maxHeartbeats 4000000 in
/-- C6: the two-statement source `s str = "hi"` / `s = 123` compiles
the declaration successfully and fails the assignment with an error
that `errors.Is`-style unwrapping still identifies as the
invalid-type-assignment kind; wrapping with context and joining
preserve that identification in general. -/
theorem claim_C6 :
    compileProgram 30 "s str = \"hi\"" = .ok "s = \"hi\"\n" ∧
    compileProgram 30 "s str = \"hi\"\ns = 123" =
      .error (.wrap "failed to compile statement"
        (.wrap "failed to compile statement block"
          (.wrap "failed to compile stmt"
            (.wrap "failed to compile statement assign"
              (.join .invalidTypeAssign
                (.msg "expected str got parser.ExprNumber")))))) ∧
    (Err.wrap "failed to compile statement"
      (.wrap "failed to compile statement block"
        (.wrap "failed to compile stmt"
          (.wrap "failed to compile statement assign"
            (.join .invalidTypeAssign
              (.msg "expected str got parser.ExprNumber")))))).is .invalidTypeAssign
      = true ∧
    (∀ (ctx : String) (e : Err),
      (Err.wrap ctx e).is .invalidTypeAssign = e.is .invalidTypeAssign) ∧
    (∀ a b : Err,
      (Err.join a b).is .invalidTypeAssign =
        (a.is .invalidTypeAssign || b.is .invalidTypeAssign)) := by
  have hp1 : (Parse 30 (Lexer.new "s str = \"hi\"")).1 =
      .ok (.block [.varDeclare "s" .str (some (.str "hi"))]) := by rfl
  have hPB : ∀ l : Lexer, parseBlock 30 l =
      match parseBlockLoop 29 [] l with
      | (.error e, l₁) => (.error e, l₁)
      | (.ok stmts, l₁) => (.ok (.block stmts), l₁) := fun l => rfl
  have hB29 : ∀ (acc : List Stmt) (l : Lexer), parseBlockLoop 29 acc l =
      match PeekToken l with
      | (.error e, l₁) =>
          if e.is .eof then (.ok acc, l₁)
          else (.error (.wrap "failed to peek token" e), l₁)
      | (.ok _, l₁) =>
          match parseStmt 28 l₁ with
          | (.error e, l₂) => (.error (.wrap "failed to parse statement" e), l₂)
          | (.ok none, l₂) => parseBlockLoop 28 acc l₂
          | (.ok (some s), l₂) => parseBlockLoop 28 (acc ++ [s]) l₂ :=
    fun acc l => rfl
  have h0 : PeekToken (Lexer.new "s str = \"hi\"\ns = 123") =
      (.ok (Token.mk .label "s"),
       Lexer.mk (Lexer.new "s str = \"hi\"\ns = 123").input 1
         (some (Token.mk .label "s"))) := by rfl
  have h1 : parseStmt 28
      (Lexer.mk (Lexer.new "s str = \"hi\"\ns = 123").input 1
        (some (Token.mk .label "s"))) =
      (.ok (some (.varDeclare "s" .str (some (.str "hi")))),
       Lexer.mk (Lexer.new "s str = \"hi\"\ns = 123").input 14
         (some (Token.mk .label "s"))) := by rfl
  have hparse2 : Parse 30 (Lexer.new "s str = \"hi\"\ns = 123") =
      (.ok (.block [.varDeclare "s" .str (some (.str "hi")),
                    .varAssign "s" (.number "123")]),
       Lexer.mk (Lexer.new "s str = \"hi\"\ns = 123").input 20 none) := by
    rw [Parse, hPB, hB29, h0]
    simp only [h1, List.nil_append]
    rfl
  have hp2 : (Parse 30 (Lexer.new "s str = \"hi\"\ns = 123")).1 =
      .ok (.block [.varDeclare "s" .str (some (.str "hi")),
                   .varAssign "s" (.number "123")]) := by rw [hparse2]
  refine ⟨?_, ?_, by rfl, ?_, ?_⟩
  · rw [compileProgram, hp1]
    rfl
  · rw [compileProgram, hp2]
    rfl
  · intro ctx e
    rw [Err.is]
    simp
  · intro a b
    rw [Err.is]
    simp

theorem goJoin_cons (x : String) (parts : List String) (h : parts ≠ []) :
    goJoin (x :: parts) = x ++ "," ++ goJoin parts := by
  cases parts with
  | nil => exact absurd rfl h
  | cons y ys => rfl

theorem zeroFieldsSpec_cons_ne_nil (objects : List (String × List (String × DataType)))
    (m : Nat) (g : String × DataType) (rest : List (String × DataType))
    (parts : List String) (h : zeroFieldsSpec objects m (g :: rest) = some parts) :
    parts ≠ [] := by
  cases m with
  | zero => simp [zeroFieldsSpec] at h
  | succ k =>
      rw [zeroFieldsSpec] at h
      split at h
      · simp only [Option.some.injEq] at h
        rw [← h]
        simp
      · simp at h

theorem zeroSpec_mono (fuel : Nat) :
    (∀ (objects : List (String × List (String × DataType))) (dt : DataType)
      (z : String), zeroValueTextSpec objects fuel dt = some z →
      zeroValueTextSpec objects (fuel + 1) dt = some z) ∧
    (∀ (objects : List (String × List (String × DataType)))
      (fields : List (String × DataType)) (parts : List String),
      zeroFieldsSpec objects fuel fields = some parts →
      zeroFieldsSpec objects (fuel + 1) fields = some parts) := by
  induction fuel with
  | zero =>
      constructor
      · intro objects dt z h; simp [zeroValueTextSpec] at h
      · intro objects fields parts h; simp [zeroFieldsSpec] at h
  | succ m ih =>
      constructor
      · intro objects dt z h
        cases dt with
        | number => exact h
        | str => exact h
        | boolean => exact h
        | list t => exact h
        | map kt vt => exact h
        | custom n =>
            rw [zeroValueTextSpec] at h ⊢
            cases hL : List.lookup n objects with
            | none => simp [hL] at h
            | some fields =>
                simp only [hL] at h ⊢
                cases hF : zeroFieldsSpec objects m fields with
                | none => simp [hF] at h
                | some parts =>
                    simp only [hF] at h
                    simp only [ih.2 objects fields parts hF]
                    exact h
      · intro objects fields parts h
        cases fields with
        | nil => exact h
        | cons f rest =>
            rw [zeroFieldsSpec] at h ⊢
            cases hV : zeroValueTextSpec objects m f.2 with
            | none => simp [hV] at h
            | some z =>
                simp only [hV] at h
                cases hF : zeroFieldsSpec objects m rest with
                | none => simp [hF] at h
                | some ps =>
                    simp only [hF] at h
                    simp only [ih.1 objects f.2 z hV, ih.2 objects rest ps hF]
                    exact h

theorem zeroValue_bridge (fuel : Nat) :
    (∀ (objects : List (String × List (String × DataType))) (dt : DataType)
      (z : String), compileDataTypeZeroValue objects fuel dt = .ok z →
      zeroValueTextSpec objects fuel dt = some z) ∧
    (∀ (objects : List (String × List (String × DataType))) (n : String)
      (z : String), compileObjectZeroValue objects fuel n = .ok z →
      zeroValueTextSpec objects fuel (.custom n) = some z) ∧
    (∀ (objects : List (String × List (String × DataType)))
      (fields : List (String × DataType)) (s : String),
      zeroFieldsLoop objects fuel fields = .ok s →
      ∃ parts, zeroFieldsSpec objects fuel fields = some parts ∧ s = goJoin parts) := by
  induction fuel with
  | zero =>
      refine ⟨?_, ?_, ?_⟩
      · intro objects dt z h; simp [compileDataTypeZeroValue, outOfFuel] at h
      · intro objects n z h; simp [compileObjectZeroValue, outOfFuel] at h
      · intro objects fields s h; simp [zeroFieldsLoop, outOfFuel] at h
  | succ m ih =>
      refine ⟨?_, ?_, ?_⟩
      · intro objects dt z h
        cases dt with
        | custom n =>
            rw [compileDataTypeZeroValue] at h
            exact (zeroSpec_mono m).1 objects (.custom n) z (ih.2.1 objects n z h)
        | number =>
            have h' : (Except.ok "0" : Except Err String) = Except.ok z := h
            rw [← Except.ok.inj h']; rfl
        | str =>
            have h' : (Except.ok "\"\"" : Except Err String) = Except.ok z := h
            rw [← Except.ok.inj h']; rfl
        | boolean =>
            have h' : (Except.ok "false" : Except Err String) = Except.ok z := h
            rw [← Except.ok.inj h']; rfl
        | list t =>
            have h' : (Except.ok "[]" : Except Err String) = Except.ok z := h
            rw [← Except.ok.inj h']; rfl
        | map kt vt =>
            have h' : (Except.ok "\x7b\x7d" : Except Err String) = Except.ok z := h
            rw [← Except.ok.inj h']; rfl
      · intro objects n z h
        rw [compileObjectZeroValue] at h
        cases hL : List.lookup n objects with
        | none => simp only [hL] at h; simp at h
        | some fields =>
            simp only [hL] at h
            cases hF : zeroFieldsLoop objects m fields with
            | error e => simp only [hF] at h; simp at h
            | ok body =>
                simp only [hF, Except.ok.injEq] at h
                obtain ⟨parts, hps, hbody⟩ := ih.2.2 objects fields body hF
                rw [zeroValueTextSpec]
                simp only [hL, hps]
                rw [← h, hbody]
      · intro objects fields s h
        cases fields with
        | nil =>
            rw [zeroFieldsLoop] at h
            simp only [Except.ok.injEq] at h
            exact ⟨[], rfl, h.symm⟩
        | cons f rest =>
            cases rest with
            | nil =>
                cases m with
                | zero =>
                    rw [zeroFieldsLoop] at h
                    simp [compileDataTypeZeroValue, outOfFuel] at h
                | succ k =>
                    rw [zeroFieldsLoop] at h
                    cases hz : compileDataTypeZeroValue objects (k + 1) f.2 with
                    | error e => simp only [hz] at h; simp at h
                    | ok zf =>
                        simp only [hz, Except.ok.injEq] at h
                        refine ⟨["\"" ++ f.1 ++ "\":" ++ zf], ?_, ?_⟩
                        · rw [zeroFieldsSpec]
                          simp only [ih.1 objects f.2 zf hz]
                          rw [zeroFieldsSpec]
                        · rw [← h]; rfl
            | cons g rest₂ =>
                cases m with
                | zero =>
                    have he : zeroFieldsLoop objects (0 + 1) (f :: g :: rest₂) =
                        .error outOfFuel := rfl
                    rw [he] at h
                    simp at h
                | succ k =>
                    have he : zeroFieldsLoop objects (k + 1 + 1) (f :: g :: rest₂) =
                        match compileDataTypeZeroValue objects (k + 1) f.2 with
                        | .error e => .error e
                        | .ok z =>
                            match zeroFieldsLoop objects (k + 1) (g :: rest₂) with
                            | .error e => .error e
                            | .ok srest =>
                                .ok ("\"" ++ f.1 ++ "\":" ++ z ++ "," ++ srest) := rfl
                    rw [he] at h
                    cases hz : compileDataTypeZeroValue objects (k + 1) f.2 with
                    | error e => simp only [hz] at h; simp at h
                    | ok zf =>
                        simp only [hz] at h
                        cases hrest : zeroFieldsLoop objects (k + 1) (g :: rest₂) with
                        | error e => simp only [hrest] at h; simp at h
                        | ok srest =>
                            simp only [hrest, Except.ok.injEq] at h
                            obtain ⟨parts, hps, hsr⟩ :=
                              ih.2.2 objects (g :: rest₂) srest hrest
                            refine ⟨("\"" ++ f.1 ++ "\":" ++ zf) :: parts, ?_, ?_⟩
                            · rw [zeroFieldsSpec]
                              simp only [ih.1 objects f.2 zf hz, hps]
                            · rw [goJoin_cons _ parts
                                (zeroFieldsSpec_cons_ne_nil objects (k + 1) g rest₂
                                  parts hps), ← h, hsr]

/-- C3: a variable declaration with no initializer emits, after
`name = ` (with `local ` prefixed outside the global scope), exactly
the declared type's zero-value text as the specification words it:
`0`, `""`, `false`, `[]`, the empty table, and for a registered object
type the table listing every declared field at its own zero value,
recursively. -/
theorem claim_C3 (fuel : Nat) (name : String) (dt : DataType) (c c' : CState)
    (h : compileStmtVarDeclare fuel name dt none c = .ok c') :
    ∃ z, zeroValueTextSpec c.objects fuel dt = some z ∧
      c'.out = c.out ++
        ((if c.scope ≠ globalScope then Keyword_Local ++ " " else "") ++
          name ++ " = ") ++ z := by
  rw [compileStmtVarDeclare] at h
  by_cases hS : (List.lookup name c.vars).isSome = true
  · rw [if_pos hS] at h
    exact absurd h (by simp)
  · rw [if_neg hS] at h
    simp only [] at h
    cases hz : compileDataTypeZeroValue c.objects fuel dt with
    | error e => simp only [hz] at h; exact absurd h (by simp)
    | ok z =>
        simp only [hz, Except.ok.injEq] at h
        refine ⟨z, (zeroValue_bridge fuel).1 c.objects dt z hz, ?_⟩
        rw [← h]

/-- C3 witness: declaring `x` of registered object type `P` with fields
`a num` and `b str`, with no initializer, emits the fully expanded
zero-value table. -/
theorem claim_C3_witness :
    ∃ z, zeroValueTextSpec [("P", [("a", DataType.number), ("b", DataType.str)])] 5
        (DataType.custom "P") = some z ∧
      "local x = \x7b\"a\":0,\"b\":\"\"\x7d" =
        "" ++ ((if (0 : Nat) ≠ globalScope then Keyword_Local ++ " " else "") ++
          "x" ++ " = ") ++ z :=
  claim_C3 5 "x" (DataType.custom "P")
    (CState.mk "" 0 [] [("P", [("a", DataType.number), ("b", DataType.str)])])
    (CState.mk "local x = \x7b\"a\":0,\"b\":\"\"\x7d" 0
      [("x", VarInfo.mk 0 (DataType.custom "P"))]
      [("P", [("a", DataType.number), ("b", DataType.str)])])
    (by rfl)

/-- C4 counterexample: declaring `x` inside a nested block when `x` is
recorded only at the outer scope IS rejected as a redeclaration, against
the claim's "current scope only" reading. -/
theorem claim_C4_counterexample :
    Compile 10 (.block [.varDeclare "x" .number none,
        .block [.varDeclare "x" .number none]]) =
      .error (.wrap "failed to compile statement"
        (.wrap "failed to compile statement block"
          (.wrap "failed to compile stmt"
            (.wrap "failed to compile statement block"
              (.wrap "failed to compile stmt"
                (.wrap "failed to compile statement variable declare"
                  (.varExists "x"))))))) := by rfl

/-- C4 (amended): `compileStmtVarDeclare` reports the redeclaration
error exactly when the name already has an entry in the flat symbol
table, at any active scope depth — not only in the current scope. -/
theorem claim_C4 (fuel : Nat) (name : String) (dt : DataType)
    (exprOpt : Option Expr) (c : CState) :
    compileStmtVarDeclare fuel name dt exprOpt c = .error (.varExists name) ↔
      (List.lookup name c.vars).isSome = true := by
  constructor
  · intro h
    by_contra hn
    rw [compileStmtVarDeclare, if_neg hn] at h
    simp only [] at h
    repeat' split at h
    all_goals simp_all
  · intro h
    rw [compileStmtVarDeclare, if_pos h]

theorem lookup_filter_scope (vars : List (String × VarInfo)) (name : String)
    (sc : Nat) (h : ∀ vi : VarInfo, (name, vi) ∈ vars → vi.scope = sc) :
    List.lookup name (vars.filter (fun p => p.2.scope ≠ sc)) = none := by
  induction vars with
  | nil => rfl
  | cons p rest ih =>
      obtain ⟨a, vi⟩ := p
      have ht : ∀ vi' : VarInfo, (name, vi') ∈ rest → vi'.scope = sc :=
        fun vi' hm => h vi' (List.mem_cons_of_mem _ hm)
      rw [List.filter_cons]
      split
      · rename_i hcond
        have hne : (name == a) = false := by
          by_cases ha : name = a
          · exfalso
            have hsc : vi.scope = sc :=
              h vi (by rw [ha]; exact List.mem_cons_self _ _)
            simp only [ne_eq, decide_eq_true_eq] at hcond
            exact hcond hsc
          · simp [ha]
        rw [List.lookup.eq_def]
        simp only [hne]
        exact ih ht
      · exact ih ht

/-- C5: finishing a block removes exactly the symbol-table entries
recorded at the block's scope depth and restores the depth counter, so
a variable declared inside a nested block is assignable inside the
block's body but yields the undeclared-variable error right after the
block finishes. -/
theorem claim_C5 :
    (∀ (fuel : Nat) (stmts : List Stmt) (c c₂ : CState),
      compileStmtBlockLoop fuel stmts { c with scope := c.scope + 1 } = .ok c₂ →
      compileStmt (fuel + 1) (.block stmts) c =
        .ok { c₂ with vars := c₂.vars.filter (fun p => p.2.scope ≠ c.scope + 1),
                      scope := c.scope }) ∧
    (∀ (vars : List (String × VarInfo)) (name : String) (sc : Nat),
      (∀ vi : VarInfo, (name, vi) ∈ vars → vi.scope = sc) →
      List.lookup name (vars.filter (fun p => p.2.scope ≠ sc)) = none) ∧
    (∀ (fuel : Nat) (name : String) (expr : Expr) (c : CState),
      List.lookup name c.vars = none →
      compileStmtVarAssign fuel name expr c = .error (.varNotExists name)) ∧
    Compile 10 (.block [.block [.varDeclare "x" .number none,
        .varAssign "x" (.number "1")]]) = .ok "local x = 0\nx = 1\n\n" ∧
    Compile 10 (.block [.block [.varDeclare "x" .number none],
        .varAssign "x" (.number "1")]) =
      .error (.wrap "failed to compile statement"
        (.wrap "failed to compile statement block"
          (.wrap "failed to compile stmt"
            (.wrap "failed to compile statement assign"
              (.varNotExists "x"))))) := by
  refine ⟨?_, lookup_filter_scope, ?_, by rfl, by rfl⟩
  · intro fuel stmts c c₂ h
    rw [compileStmt]
    simp only [h]
  · intro fuel name expr c h
    rw [compileStmtVarAssign]
    simp only [h]

/-- C7: the emitted index text carries the `+1` index-origin adjustment
exactly when the indexed expression is a bare variable whose
symbol-table entry has List type; any other left expression emits
`left[index]` unmodified. -/
theorem claim_C7 (vars : List (String × VarInfo)) (fuel : Nat) (left idx : Expr)
    (sl si : String)
    (hl : compileExpr vars fuel left = .ok sl)
    (hi : compileExpr vars fuel idx = .ok si) :
    (isListVariable vars left = true →
      compileExprIndex vars (fuel + 1) left idx =
        .ok (sl ++ "[(" ++ si ++ " + 1)]")) ∧
    (isListVariable vars left = false →
      compileExprIndex vars (fuel + 1) left idx =
        .ok (sl ++ "[" ++ si ++ "]")) ∧
    (isListVariable vars left = true ↔
      ∃ (n : String) (sc : Nat) (t : DataType), left = .var n ∧
        List.lookup n vars = some (VarInfo.mk sc (.list t))) := by
  have hmain : compileExprIndex vars (fuel + 1) left idx =
      (if isListVariable vars left then .ok (sl ++ "[(" ++ si ++ " + 1)]")
       else .ok (sl ++ "[" ++ si ++ "]")) := by
    cases left with
    | var n =>
        rw [compileExprIndex]
        simp only [hl, hi, isListVariable]
    | block v =>
        rw [compileExprIndex]
        simp [hl, hi, show isListVariable vars (.block v) = false from rfl]
        all_goals intro n hn; simp at hn
    | number v =>
        rw [compileExprIndex]
        simp [hl, hi, show isListVariable vars (.number v) = false from rfl]
        all_goals intro n hn; simp at hn
    | str v =>
        rw [compileExprIndex]
        simp [hl, hi, show isListVariable vars (.str v) = false from rfl]
        all_goals intro n hn; simp at hn
    | boolean v =>
        rw [compileExprIndex]
        simp [hl, hi, show isListVariable vars (.boolean v) = false from rfl]
        all_goals intro n hn; simp at hn
    | list vs =>
        rw [compileExprIndex]
        simp [hl, hi, show isListVariable vars (.list vs) = false from rfl]
        all_goals intro n hn; simp at hn
    | table ps =>
        rw [compileExprIndex]
        simp [hl, hi, show isListVariable vars (.table ps) = false from rfl]
        all_goals intro n hn; simp at hn
    | index a b =>
        rw [compileExprIndex]
        simp [hl, hi, show isListVariable vars (.index a b) = false from rfl]
        all_goals intro n hn; simp at hn
    | propertyAccess a p =>
        rw [compileExprIndex]
        simp [hl, hi, show isListVariable vars (.propertyAccess a p) = false from rfl]
        all_goals intro n hn; simp at hn
    | binary a op b =>
        rw [compileExprIndex]
        simp [hl, hi, show isListVariable vars (.binary a op b) = false from rfl]
        all_goals intro n hn; simp at hn
  refine ⟨?_, ?_, ?_⟩
  · intro ht
    rw [hmain, if_pos ht]
  · intro hf
    rw [hmain, if_neg (by simp [hf])]
  · cases left with
    | var n =>
        cases hL : List.lookup n vars with
        | none => simp [isListVariable, hL]
        | some vi =>
            obtain ⟨sc, dt⟩ := vi
            cases dt with
            | list t =>
                simp only [isListVariable, hL]
                exact ⟨fun _ => ⟨n, sc, t, rfl, hL⟩, fun _ => by trivial⟩
            | number => simp [isListVariable, hL]
            | str => simp [isListVariable, hL]
            | boolean => simp [isListVariable, hL]
            | map kt vt => simp [isListVariable, hL]
            | custom nm => simp [isListVariable, hL]
    | block v => simp [show isListVariable vars (.block v) = false from rfl]
    | number v => simp [show isListVariable vars (.number v) = false from rfl]
    | str v => simp [show isListVariable vars (.str v) = false from rfl]
    | boolean v => simp [show isListVariable vars (.boolean v) = false from rfl]
    | list vs => simp [show isListVariable vars (.list vs) = false from rfl]
    | table ps => simp [show isListVariable vars (.table ps) = false from rfl]
    | index a b => simp [show isListVariable vars (.index a b) = false from rfl]
    | propertyAccess a p => simp [show isListVariable vars (.propertyAccess a p) = false from rfl]
    | binary a op b => simp [show isListVariable vars (.binary a op b) = false from rfl]

/-- C7 witness: indexing the List-typed variable `xs` gets the `+1`
adjustment, and the characterization instantiates at its symbol-table
entry. -/
theorem claim_C7_witness :
    (isListVariable [("xs", VarInfo.mk 1 (DataType.list DataType.number))]
        (.var "xs") = true →
      compileExprIndex [("xs", VarInfo.mk 1 (DataType.list DataType.number))] 2
        (.var "xs") (.number "0") = .ok ("xs" ++ "[(" ++ "0" ++ " + 1)]")) ∧
    (isListVariable [("xs", VarInfo.mk 1 (DataType.list DataType.number))]
        (.var "xs") = false →
      compileExprIndex [("xs", VarInfo.mk 1 (DataType.list DataType.number))] 2
        (.var "xs") (.number "0") = .ok ("xs" ++ "[" ++ "0" ++ "]")) ∧
    (isListVariable [("xs", VarInfo.mk 1 (DataType.list DataType.number))]
        (.var "xs") = true ↔
      ∃ (n : String) (sc : Nat) (t : DataType), (Expr.var "xs") = .var n ∧
        List.lookup n [("xs", VarInfo.mk 1 (DataType.list DataType.number))] =
          some (VarInfo.mk sc (.list t))) :=
  claim_C7 [("xs", VarInfo.mk 1 (DataType.list DataType.number))] 1
    (.var "xs") (.number "0") "xs" "0" (by rfl) (by rfl)

theorem expandFieldsSpec_cons_ne_nil (objects : List (String × List (String × DataType)))
    (vars : List (String × VarInfo)) (m : Nat) (g : String × DataType)
    (rest : List (String × DataType)) (provided : List (String × Expr))
    (parts : List String)
    (h : expandFieldsSpec objects vars m (g :: rest) provided = some parts) :
    parts ≠ [] := by
  cases m with
  | zero => simp [expandFieldsSpec] at h
  | succ k =>
      rw [expandFieldsSpec] at h
      split at h
      · simp only [Option.some.injEq] at h
        rw [← h]
        simp
      · simp at h

theorem expandTable_bridge (fuel : Nat) :
    (∀ (objects : List (String × List (String × DataType)))
      (vars : List (String × VarInfo)) (pairs : List (Expr × Expr))
      (objName s : String),
      compileExprTableWithZeroValues objects vars fuel pairs objName = .ok s →
      expandTableSpec objects vars fuel pairs objName = some s) ∧
    (∀ (objects : List (String × List (String × DataType)))
      (vars : List (String × VarInfo)) (provided : List (String × Expr))
      (f : String × DataType) (x : String),
      tableZVField objects vars fuel provided f = .ok x →
      expandFieldSpec objects vars fuel provided f = some x) ∧
    (∀ (objects : List (String × List (String × DataType)))
      (vars : List (String × VarInfo)) (provided : List (String × Expr))
      (fields : List (String × DataType)) (s : String),
      tableZVFieldsLoop objects vars fuel provided fields = .ok s →
      ∃ parts, expandFieldsSpec objects vars fuel fields provided = some parts ∧
        s = goJoin parts) := by
  induction fuel with
  | zero =>
      refine ⟨?_, ?_, ?_⟩
      · intro objects vars pairs objName s h
        simp [compileExprTableWithZeroValues, outOfFuel] at h
      · intro objects vars provided f x h
        simp [tableZVField, outOfFuel] at h
      · intro objects vars provided fields s h
        simp [tableZVFieldsLoop, outOfFuel] at h
  | succ m ih =>
      refine ⟨?_, ?_, ?_⟩
      · intro objects vars pairs objName s h
        rw [compileExprTableWithZeroValues] at h
        cases hL : List.lookup objName objects with
        | none => simp only [hL] at h; simp at h
        | some fields =>
            simp only [hL] at h
            cases hF : tableZVFieldsLoop objects vars m (providedFields pairs)
                fields with
            | error e => simp only [hF] at h; simp at h
            | ok body =>
                simp only [hF, Except.ok.injEq] at h
                obtain ⟨parts, hps, hbody⟩ :=
                  ih.2.2 objects vars (providedFields pairs) fields body hF
                rw [expandTableSpec]
                simp only [hL, hps]
                rw [← h, hbody]
      · intro objects vars provided f x h
        obtain ⟨fn, fdt⟩ := f
        rw [tableZVField] at h
        simp only [] at h
        rw [expandFieldSpec]
        simp only []
        cases hP : List.lookup fn provided with
        | none =>
            simp only [hP] at h ⊢
            cases hz : compileDataTypeZeroValue objects m fdt with
            | error e => simp only [hz] at h; simp at h
            | ok z =>
                simp only [hz, Except.ok.injEq] at h
                rw [← h]
                exact (zeroValue_bridge m).1 objects fdt z hz
        | some value =>
            simp only [hP] at h ⊢
            cases value with
            | table ps =>
                cases fdt with
                | custom mn =>
                    simp only [] at h ⊢
                    by_cases hreg : (List.lookup mn objects).isSome = true
                    · rw [if_pos hreg] at h ⊢
                      cases hc : compileExprTableWithZeroValues objects vars m ps
                          mn with
                      | error e => simp only [hc] at h; simp at h
                      | ok s₂ =>
                          simp only [hc, Except.ok.injEq] at h
                          rw [← h]
                          exact ih.1 objects vars ps mn s₂ hc
                    · rw [if_neg hreg] at h ⊢
                      cases hc : compileExpr vars m (.table ps) with
                      | error e => simp only [hc] at h; simp at h
                      | ok s₂ =>
                          simp only [hc, Except.ok.injEq] at h
                          simp only [exceptToOption, hc]
                          rw [h]
                | number =>
                    simp only [] at h ⊢
                    cases hc : compileExpr vars m (.table ps) with
                    | error e => simp only [hc] at h; simp at h
                    | ok s₂ =>
                        simp only [hc, Except.ok.injEq] at h
                        simp only [exceptToOption, hc]
                        rw [h]
                | str =>
                    simp only [] at h ⊢
                    cases hc : compileExpr vars m (.table ps) with
                    | error e => simp only [hc] at h; simp at h
                    | ok s₂ =>
                        simp only [hc, Except.ok.injEq] at h
                        simp only [exceptToOption, hc]
                        rw [h]
                | boolean =>
                    simp only [] at h ⊢
                    cases hc : compileExpr vars m (.table ps) with
                    | error e => simp only [hc] at h; simp at h
                    | ok s₂ =>
                        simp only [hc, Except.ok.injEq] at h
                        simp only [exceptToOption, hc]
                        rw [h]
                | list t =>
                    simp only [] at h ⊢
                    cases hc : compileExpr vars m (.table ps) with
                    | error e => simp only [hc] at h; simp at h
                    | ok s₂ =>
                        simp only [hc, Except.ok.injEq] at h
                        simp only [exceptToOption, hc]
                        rw [h]
                | map kt vt =>
                    simp only [] at h ⊢
                    cases hc : compileExpr vars m (.table ps) with
                    | error e => simp only [hc] at h; simp at h
                    | ok s₂ =>
                        simp only [hc, Except.ok.injEq] at h
                        simp only [exceptToOption, hc]
                        rw [h]
            | block v =>
                simp only [] at h ⊢
                cases hc : compileExpr vars m (.block v) with
                | error e => simp only [hc] at h; simp at h
                | ok s₂ =>
                    simp only [hc, Except.ok.injEq] at h
                    simp only [exceptToOption, hc]
                    rw [h]
            | number v =>
                simp only [] at h ⊢
                cases hc : compileExpr vars m (.number v) with
                | error e => simp only [hc] at h; simp at h
                | ok s₂ =>
                    simp only [hc, Except.ok.injEq] at h
                    simp only [exceptToOption, hc]
                    rw [h]
            | str v =>
                simp only [] at h ⊢
                cases hc : compileExpr vars m (.str v) with
                | error e => simp only [hc] at h; simp at h
                | ok s₂ =>
                    simp only [hc, Except.ok.injEq] at h
                    simp only [exceptToOption, hc]
                    rw [h]
            | boolean v =>
                simp only [] at h ⊢
                cases hc : compileExpr vars m (.boolean v) with
                | error e => simp only [hc] at h; simp at h
                | ok s₂ =>
                    simp only [hc, Except.ok.injEq] at h
                    simp only [exceptToOption, hc]
                    rw [h]
            | list vs =>
                simp only [] at h ⊢
                cases hc : compileExpr vars m (.list vs) with
                | error e => simp only [hc] at h; simp at h
                | ok s₂ =>
                    simp only [hc, Except.ok.injEq] at h
                    simp only [exceptToOption, hc]
                    rw [h]
            | var nm =>
                simp only [] at h ⊢
                cases hc : compileExpr vars m (.var nm) with
                | error e => simp only [hc] at h; simp at h
                | ok s₂ =>
                    simp only [hc, Except.ok.injEq] at h
                    simp only [exceptToOption, hc]
                    rw [h]
            | index a b =>
                simp only [] at h ⊢
                cases hc : compileExpr vars m (.index a b) with
                | error e => simp only [hc] at h; simp at h
                | ok s₂ =>
                    simp only [hc, Except.ok.injEq] at h
                    simp only [exceptToOption, hc]
                    rw [h]
            | propertyAccess a p =>
                simp only [] at h ⊢
                cases hc : compileExpr vars m (.propertyAccess a p) with
                | error e => simp only [hc] at h; simp at h
                | ok s₂ =>
                    simp only [hc, Except.ok.injEq] at h
                    simp only [exceptToOption, hc]
                    rw [h]
            | binary a op b =>
                simp only [] at h ⊢
                cases hc : compileExpr vars m (.binary a op b) with
                | error e => simp only [hc] at h; simp at h
                | ok s₂ =>
                    simp only [hc, Except.ok.injEq] at h
                    simp only [exceptToOption, hc]
                    rw [h]
      · intro objects vars provided fields s h
        cases fields with
        | nil =>
            rw [tableZVFieldsLoop] at h
            simp only [Except.ok.injEq] at h
            exact ⟨[], rfl, h.symm⟩
        | cons f rest =>
            cases rest with
            | nil =>
                cases m with
                | zero =>
                    rw [tableZVFieldsLoop] at h
                    simp [tableZVField, outOfFuel] at h
                | succ k =>
                    rw [tableZVFieldsLoop] at h
                    cases hf : tableZVField objects vars (k + 1) provided f with
                    | error e => simp only [hf] at h; simp at h
                    | ok x =>
                        simp only [hf, Except.ok.injEq] at h
                        refine ⟨["\"" ++ f.1 ++ "\":" ++ x], ?_, ?_⟩
                        · rw [expandFieldsSpec]
                          simp only [ih.2.1 objects vars provided f x hf]
                          rw [expandFieldsSpec]
                        · rw [← h]; rfl
            | cons g rest₂ =>
                cases m with
                | zero =>
                    have he : tableZVFieldsLoop objects vars (0 + 1) provided
                        (f :: g :: rest₂) = .error outOfFuel := rfl
                    rw [he] at h
                    simp at h
                | succ k =>
                    have he : tableZVFieldsLoop objects vars (k + 1 + 1) provided
                        (f :: g :: rest₂) =
                        match tableZVField objects vars (k + 1) provided f with
                        | .error e => .error e
                        | .ok x =>
                            match tableZVFieldsLoop objects vars (k + 1) provided
                                (g :: rest₂) with
                            | .error e => .error e
                            | .ok srest =>
                                .ok ("\"" ++ f.1 ++ "\":" ++ x ++ "," ++ srest) := rfl
                    rw [he] at h
                    cases hf : tableZVField objects vars (k + 1) provided f with
                    | error e => simp only [hf] at h; simp at h
                    | ok x =>
                        simp only [hf] at h
                        cases hrest : tableZVFieldsLoop objects vars (k + 1) provided
                            (g :: rest₂) with
                        | error e => simp only [hrest] at h; simp at h
                        | ok srest =>
                            simp only [hrest, Except.ok.injEq] at h
                            obtain ⟨parts, hps, hsr⟩ :=
                              ih.2.2 objects vars provided (g :: rest₂) srest hrest
                            refine ⟨("\"" ++ f.1 ++ "\":" ++ x) :: parts, ?_, ?_⟩
                            · rw [expandFieldsSpec]
                              simp only [ih.2.1 objects vars provided f x hf, hps]
                            · rw [goJoin_cons _ parts
                                (expandFieldsSpec_cons_ne_nil objects vars (k + 1) g
                                  rest₂ provided parts hps), ← h, hsr]

theorem tableZVField_provided_congr (objects : List (String × List (String × DataType)))
    (vars : List (String × VarInfo)) (fuel : Nat)
    (provided provided' : List (String × Expr)) (f : String × DataType)
    (h : List.lookup f.1 provided = List.lookup f.1 provided') :
    tableZVField objects vars fuel provided f =
      tableZVField objects vars fuel provided' f := by
  cases fuel with
  | zero => rfl
  | succ m => rw [tableZVField, tableZVField, h]

theorem tableZVFieldsLoop_provided_congr
    (objects : List (String × List (String × DataType)))
    (vars : List (String × VarInfo)) (fuel : Nat) :
    ∀ (provided provided' : List (String × Expr))
      (fields : List (String × DataType)),
    (∀ k, List.lookup k provided = List.lookup k provided') →
    tableZVFieldsLoop objects vars fuel provided fields =
      tableZVFieldsLoop objects vars fuel provided' fields := by
  induction fuel with
  | zero => intro _ _ _ _; rfl
  | succ m ih =>
      intro provided provided' fields h
      cases fields with
      | nil => rfl
      | cons f rest =>
          cases rest with
          | nil =>
              rw [tableZVFieldsLoop, tableZVFieldsLoop,
                tableZVField_provided_congr objects vars m provided provided' f
                  (h f.1)]
          | cons g rest₂ =>
              have he1 : tableZVFieldsLoop objects vars (m + 1) provided
                  (f :: g :: rest₂) =
                  match tableZVField objects vars m provided f with
                  | .error e => .error e
                  | .ok x =>
                      match tableZVFieldsLoop objects vars m provided
                          (g :: rest₂) with
                      | .error e => .error e
                      | .ok srest =>
                          .ok ("\"" ++ f.1 ++ "\":" ++ x ++ "," ++ srest) := rfl
              have he2 : tableZVFieldsLoop objects vars (m + 1) provided'
                  (f :: g :: rest₂) =
                  match tableZVField objects vars m provided' f with
                  | .error e => .error e
                  | .ok x =>
                      match tableZVFieldsLoop objects vars m provided'
                          (g :: rest₂) with
                      | .error e => .error e
                      | .ok srest =>
                          .ok ("\"" ++ f.1 ++ "\":" ++ x ++ "," ++ srest) := rfl
              rw [he1, he2,
                tableZVField_provided_congr objects vars m provided provided' f
                  (h f.1),
                ih provided provided' (g :: rest₂) h]

/-- C2: a successful zero-filling table emission refines the
specification-side expansion `expandTableSpec` (declared fields in
definition order, provided values kept and recursively expanded, absent
fields zero-filled); the emission depends on the literal's pairs only
through name lookup in the provided-fields map, so source order and
repetition of fields are irrelevant; a table literal declared at a
registered object type is emitted through this expansion; and the
specification's own `{a: num, b: str}` example, with only `a` supplied,
emits both `"a":7` and `"b":""`. -/
theorem claim_C2 :
    (∀ (fuel : Nat) (objects : List (String × List (String × DataType)))
      (vars : List (String × VarInfo)) (pairs : List (Expr × Expr))
      (objName s : String),
      compileExprTableWithZeroValues objects vars fuel pairs objName = .ok s →
      expandTableSpec objects vars fuel pairs objName = some s) ∧
    (∀ (fuel : Nat) (objects : List (String × List (String × DataType)))
      (vars : List (String × VarInfo)) (pairs pairs' : List (Expr × Expr))
      (objName : String),
      (∀ k, List.lookup k (providedFields pairs) =
        List.lookup k (providedFields pairs')) →
      compileExprTableWithZeroValues objects vars fuel pairs objName =
        compileExprTableWithZeroValues objects vars fuel pairs' objName) ∧
    (∀ (fuel : Nat) (name n : String) (ps : List (Expr × Expr)) (c : CState)
      (s : String),
      List.lookup name c.vars = none →
      (List.lookup n c.objects).isSome = true →
      compileExprTableWithZeroValues c.objects
        ((name, VarInfo.mk c.scope (.custom n)) :: c.vars) fuel ps n = .ok s →
      compileStmtVarDeclare fuel name (.custom n) (some (.table ps)) c =
        .ok { c with vars := (name, VarInfo.mk c.scope (.custom n)) :: c.vars,
                     out := c.out ++
                       ((if c.scope ≠ globalScope then Keyword_Local ++ " "
                         else "") ++ name ++ " = ") ++ s }) ∧
    compileExprTableWithZeroValues [("P", [("a", DataType.number), ("b", DataType.str)])]
      [] 5 [(.var "a", .number "7")] "P" = .ok "\x7b\"a\":7,\"b\":\"\"\x7d" ∧
    compileExprTableWithZeroValues
      [("Q", [("p", DataType.custom "P"), ("c", DataType.boolean)]),
       ("P", [("a", DataType.number), ("b", DataType.str)])]
      [] 8 [(.var "p", .table [(.var "b", .str "hey")])] "Q" =
      .ok "\x7b\"p\":\x7b\"a\":0,\"b\":\"hey\"\x7d,\"c\":false\x7d" := by
  refine ⟨fun fuel => (expandTable_bridge fuel).1, ?_, ?_, by rfl, by rfl⟩
  · intro fuel objects vars pairs pairs' objName h
    cases fuel with
    | zero => rfl
    | succ m =>
        rw [compileExprTableWithZeroValues, compileExprTableWithZeroValues]
        cases hL : List.lookup objName objects with
        | none => rfl
        | some fields =>
            simp only [hL]
            rw [tableZVFieldsLoop_provided_congr objects vars m
              (providedFields pairs) (providedFields pairs') fields h]
  · intro fuel name n ps c s h1 h2 h3
    rw [compileStmtVarDeclare, if_neg (by simp [h1])]
    simp only []
    rw [if_pos h2]
    simp only [h3]

end Pixie
